import Mathlib

/-!
Shallow embedding of the WebKarmaApp repository pieces that the claims
C1 to C10 talk about: the local-storage CRUD widgets for cards and coupons
(public/cabinet-cards.js, the coupons script), the Express static server,
and the frontend validation and storage utilities.

JavaScript strings are modeled as Lean strings (lists of characters),
JavaScript numbers as rationals plus an explicit NaN marker (the scripts
only ever produce decimal literals in the paths the claims mention;
binary floating point rounding plays no role there), and JSON.parse and
JSON.stringify builtins either as explicit parameters or as concrete
serializers, as noted at each definition.
-/

set_option maxRecDepth 100000

namespace WebKarma

/-! Numeric core: decimal printing and parsing used to model the
JavaScript conversions between numbers and strings. -/

/-- Character for one decimal digit, as an if chain so proofs can split. -/
def digitChar (n : Nat) : Char :=
  if n = 0 then '0' else if n = 1 then '1' else if n = 2 then '2'
  else if n = 3 then '3' else if n = 4 then '4' else if n = 5 then '5'
  else if n = 6 then '6' else if n = 7 then '7' else if n = 8 then '8' else '9'

/-- Is the character an ASCII decimal digit. -/
def isDigitCh (c : Char) : Bool := 48 ≤ c.toNat && c.toNat ≤ 57

/-- Decimal digits of a natural number, most significant first.
Fuel-driven recursion; the fuel is always taken larger than the number. -/
def natDigitsAux : Nat → Nat → List Char
  | 0, _ => []
  | fuel + 1, n =>
    if n < 10 then [digitChar n]
    else natDigitsAux fuel (n / 10) ++ [digitChar (n % 10)]

/-- Canonical decimal digit string of a natural number. -/
def natChars (n : Nat) : List Char := natDigitsAux (n + 1) n

/-- Numeric value of a digit list (assumes digits; models parsing). -/
def natFromDigits (cs : List Char) : Nat :=
  cs.foldl (fun a c => a * 10 + (c.toNat - 48)) 0

/-- JavaScript whitespace test used by String.prototype.trim and Number. -/
def isSpaceJs (c : Char) : Bool :=
  c = ' ' || c = '\t' || c = '\n' || c = '\r' || c = '\x0b' || c = '\x0c'

/-- Model of String.prototype.trim. -/
def trimChars (cs : List Char) : List Char :=
  ((cs.dropWhile isSpaceJs).reverse.dropWhile isSpaceJs).reverse

/-- Model of String.prototype.trim on strings. -/
def trimStr (s : String) : String := String.mk (trimChars s.data)

/-- Simple case folding of one character to lower case, covering the
ASCII and Cyrillic alphabets: everything the scripts' data (Russian
card names, category, district and status labels, Latin field values)
ever passes through toLowerCase. -/
def lowerChar (c : Char) : Char :=
  if ('A' ≤ c && c ≤ 'Z') || ('А' ≤ c && c ≤ 'Я') then Char.ofNat (c.toNat + 32)
  else if c = 'Ё' then 'ё'
  else c

/-- Simple case folding of one character to upper case (ASCII and
Cyrillic). -/
def upperChar (c : Char) : Char :=
  if ('a' ≤ c && c ≤ 'z') || ('а' ≤ c && c ≤ 'я') then Char.ofNat (c.toNat - 32)
  else if c = 'ё' then 'Ё'
  else c

/-- Model of String.prototype.toLowerCase over the alphabets the
application uses. -/
def lowerStr (s : String) : String := String.mk (s.data.map lowerChar)

/-- Model of String.prototype.toUpperCase over the alphabets the
application uses. -/
def upperStr (s : String) : String := String.mk (s.data.map upperChar)

/-- A JavaScript number: a rational value or NaN.  The scripts only make
numbers out of decimal literals, integers and Date.now values, so a
rational plus NaN is a faithful carrier for every path the claims use. -/
inductive JsNum where
  | q (x : ℚ)
  | nan
deriving DecidableEq, Repr

/-- Fractional decimal digits of a rational in the interval [0, 1),
fuel-driven (JavaScript prints only finitely many digits). -/
def fracDigitsAux : Nat → ℚ → List Char
  | 0, _ => []
  | fuel + 1, x =>
    if x = 0 then []
    else
      let d : ℤ := ⌊x * 10⌋
      digitChar d.toNat :: fracDigitsAux fuel (x * 10 - (d : ℚ))

/-- Decimal notation of a nonnegative rational, integer part then an
optional fractional part, like the default JavaScript number printing. -/
def ratCharsNN (x : ℚ) : List Char :=
  natChars (⌊x⌋).toNat ++
    (if x - (⌊x⌋ : ℚ) = 0 then []
     else '.' :: fracDigitsAux 1200 (x - (⌊x⌋ : ℚ)))

/-- Model of the JavaScript number-to-string conversion (String(v), or a
number flowing into Array.prototype.join). -/
def jsNumToChars : JsNum → List Char
  | JsNum.nan => ['N', 'a', 'N']
  | JsNum.q x => if x < 0 then '-' :: ratCharsNN (-x) else ratCharsNN x

/-- Digits and optional fraction: the body of the decimal part of the
Number() model below. -/
def parseDecQ (cs : List Char) : Option ℚ :=
  let ip := cs.takeWhile isDigitCh
  let rest := cs.dropWhile isDigitCh
  match rest with
  | [] => if ip.isEmpty then none else some (natFromDigits ip : ℚ)
  | c :: fp =>
    if c = '.' && fp.all isDigitCh && (!ip.isEmpty || !fp.isEmpty) then
      some ((natFromDigits ip : ℚ) + (natFromDigits fp : ℚ) / (10 : ℚ) ^ fp.length)
    else none

/-- Model of the JavaScript Number() conversion on strings: trims
whitespace, empty means 0, then an optionally signed decimal literal;
anything else is NaN.  (Exponent and hex forms never arise from the
scripts, so they are outside the modeled grammar and map to NaN.) -/
def jsNumber (s : String) : JsNum :=
  let t := trimChars s.data
  if t.isEmpty then JsNum.q 0
  else if t.head? = some '-' then
    match parseDecQ t.tail with
    | some x => JsNum.q (-x)
    | none => JsNum.nan
  else if t.head? = some '+' then
    match parseDecQ t.tail with
    | some x => JsNum.q x
    | none => JsNum.nan
  else
    match parseDecQ t with
    | some x => JsNum.q x
    | none => JsNum.nan

/-! The v1 cards widget (the ks_cards_v1 script inside
public/cabinet-cards.js): record type, CSV export, CSV import. -/

/-- Default status string the v1 cards widget assigns (the source file
stores the Russian word for draft in a mojibake encoding; the literal is
copied byte for byte from the source). -/
def stDraft1 : String := "Р В§Р ВµРЎР‚Р Р…Р С•Р Р†Р С‘Р С”"

/-- Published status literal of the v1 cards widget (mojibake, copied
from the source). -/
def stPub1 : String := "Р С›Р С—РЎС“Р В±Р В»Р С‘Р С”Р С•Р Р†Р В°Р Р…Р С•"

/-- A card record as the v1 widget constructs it (fromForm and the
CSV import both build exactly these fields). -/
structure Card where
  id : String
  name : String
  category : String
  district : String
  discount : Option JsNum
  status : String
  published : Bool
  description : String
  createdAt : String
  updatedAt : String
deriving DecidableEq, Repr

/-- CSV escaping of the export: v.replace of every double quote by a
doubled double quote. -/
def csvEscape (cs : List Char) : List Char :=
  cs.flatMap fun c => if c = '"' then ['"', '"'] else [c]

/-- String field cell of the export: quotes around the escaped text. -/
def quoteCell (s : String) : List Char := '"' :: (csvEscape s.data ++ ['"'])

/-- Export cell for the discount field: null and undefined print as the
empty cell, a number prints with the JavaScript number notation. -/
def discountCell : Option JsNum → List Char
  | none => []
  | some v => jsNumToChars v

/-- Export cell for the published field (a boolean joined into the row). -/
def boolCell : Bool → List Char
  | true => ['t', 'r', 'u', 'e']
  | false => ['f', 'a', 'l', 's', 'e']

/-- One exported CSV data row: the ten header fields of the card, in the
header order, joined with commas (btnExport handler, lines 266-285). -/
def cardRow (c : Card) : List Char :=
  quoteCell c.id ++ ',' :: quoteCell c.name ++ ',' :: quoteCell c.category ++
  ',' :: quoteCell c.district ++ ',' :: discountCell c.discount ++
  ',' :: quoteCell c.status ++ ',' :: boolCell c.published ++
  ',' :: quoteCell c.description ++ ',' :: quoteCell c.createdAt ++
  ',' :: quoteCell c.updatedAt

/-- The fixed export header row. -/
def csvHeaderChars : List Char :=
  String.data "id,name,category,district,discount,status,published,description,createdAt,updatedAt"

/-- Array.prototype.join with the two character separator CRLF. -/
def joinCRLF : List (List Char) → List Char
  | [] => []
  | [l] => l
  | l :: ls => l ++ '\r' :: '\n' :: joinCRLF ls

/-- The full CSV text of the cards export. -/
def exportCsvChars (cards : List Card) : List Char :=
  joinCRLF (csvHeaderChars :: cards.map cardRow)

/-- The cards export as a string. -/
def exportCsv (cards : List Card) : String := String.mk (exportCsvChars cards)

/-- String.prototype.split on the regex of an optional CR then LF:
a lone LF separates, a CR immediately followed by LF separates, any
other character (a lone CR included) stays in the current line. -/
def splitLinesF : Nat → List Char → List Char → List (List Char)
  | 0, cur, _ => [cur]
  | _ + 1, cur, [] => [cur]
  | fuel + 1, cur, c :: rest =>
    if c = '\n' then cur :: splitLinesF fuel [] rest
    else if c = '\r' then
      if rest.head? = some '\n' then cur :: splitLinesF fuel [] rest.tail
      else splitLinesF fuel (cur ++ [c]) rest
    else splitLinesF fuel (cur ++ [c]) rest

/-- Split a text into lines the way the import does.  The fuel is the
text length, and every step consumes at least one character, so the
fuel never runs out. -/
def splitLines (cs : List Char) : List (List Char) := splitLinesF cs.length [] cs

/-- The hand rolled single line CSV tokenizer of the import handler
(lines 291-308 of the cards script, identical in the coupons script):
a character loop with an in-quotes flag, doubled quote escapes, commas
split only outside quotes. -/
def csvTokensF : Nat → List Char → Bool → List Char → List (List Char) → List (List Char)
  | 0, _, _, cur, out => out ++ [cur]
  | _ + 1, [], _, cur, out => out ++ [cur]
  | fuel + 1, c :: rest, true, cur, out =>
    if c = '"' then
      if rest.head? = some '"' then csvTokensF fuel rest.tail true (cur ++ ['"']) out
      else csvTokensF fuel rest false cur out
    else csvTokensF fuel rest true (cur ++ [c]) out
  | fuel + 1, c :: rest, false, cur, out =>
    if c = ',' then csvTokensF fuel rest false [] (out ++ [cur])
    else if c = '"' then csvTokensF fuel rest true cur out
    else csvTokensF fuel rest false (cur ++ [c]) out

/-- Tokenize one line; the fuel is the line length, and every step
consumes at least one character. -/
def csvTokensLine (l : List Char) : List (List Char) :=
  csvTokensF l.length l false [] []

/-- Rows of the import: split on newlines, drop empty lines (the filter
on Boolean), tokenize each line separately. -/
def parseCsvRows (cs : List Char) : List (List (List Char)) :=
  ((splitLines cs).filter (fun l => !l.isEmpty)).map csvTokensLine

/-- header.indexOf of the import, with the running position explicit. -/
def indexOfAux [DecidableEq α] : List α → α → Nat → Option Nat
  | [], _, _ => none
  | a :: as, k, i => if a = k then some i else indexOfAux as k (i + 1)

/-- Positional access into a tokenized row, empty beyond the end. -/
def nthCell : List (List Char) → Nat → List Char
  | [], _ => []
  | x :: _, 0 => x
  | _ :: xs, j + 1 => nthCell xs j

/-- Indexing a row at the looked-up header position; a missing header
entry or an index beyond the row gives the undefined marker, which every
use in the import guards with a truthiness test, so the empty string is
a faithful stand-in. -/
def cellAt (r : List (List Char)) : Option Nat → List Char
  | none => []
  | some j => nthCell r j

/-- One imported card record, built from a tokenized row exactly as
the import loop does (lines 311-324): empty cells fall back per field, the
published cell compares lowercased against true, updatedAt is stamped
with the import time.  uidv supplies the uid() call for an empty id. -/
def importCard (uidv now : String) (hdr : List (List Char)) (r : List (List Char)) : Card :=
  let cell := fun (k : String) => cellAt r (indexOfAux hdr k.data 0)
  { id := if (cell ("id")).isEmpty then uidv else String.mk (cell ("id"))
    name := String.mk (cell ("name"))
    category := String.mk (cell ("category"))
    district := String.mk (cell ("district"))
    discount := if (cell ("discount")).isEmpty then none
                else some (jsNumber (String.mk (cell ("discount"))))
    status := if (cell ("status")).isEmpty then stDraft1
              else String.mk (cell ("status"))
    published := lowerStr (String.mk (cell ("published"))) = "true"
    description := String.mk (cell ("description"))
    createdAt := if (cell ("createdAt")).isEmpty then now
                 else String.mk (cell ("createdAt"))
    updatedAt := now }

/-- The upsert of the import loop: replace the first record with the
same id in place, otherwise push at the back. -/
def importUpsert (cards : List Card) (obj : Card) : List Card :=
  match cards.findIdx? (fun x => x.id == obj.id) with
  | some i => cards.set i obj
  | none => cards ++ [obj]

/-- The forEach over the data rows of the import: skip empty rows, build
the record, and upsert it only when its name is truthy.  The row counter
feeds the uid model so each row can draw a fresh id. -/
def importRowsLoop (uidF : Nat → String) (now : String) (hdr : List (List Char)) :
    Nat → List (List (List Char)) → List Card → List Card
  | _, [], cards => cards
  | k, r :: rs, cards =>
    if r.isEmpty then importRowsLoop uidF now hdr (k + 1) rs cards
    else
      let obj := importCard (uidF k) now hdr r
      importRowsLoop uidF now hdr (k + 1) rs
        (if obj.name.isEmpty then cards else importUpsert cards obj)

/-- The whole CSV import (importInput change handler): tokenize the
text, shift the header row off, fold the remaining rows into the current
card array. -/
def importCsvInto (uidF : Nat → String) (now : String) (text : String)
    (cards : List Card) : List Card :=
  let rows := parseCsvRows text.data
  importRowsLoop uidF now (rows.headD []) 0 rows.tail cards

/-- The record shape for which the CSV round trip can restore a card:
truthy id, name, status and createdAt (a falsy one falls back at
the import), no newline inside any string field (a newline would split the
record across lines), and a discount that is null or a number with a
finite decimal expansion of at most 1200 digits — every JavaScript
number value, integer or fractional like 2.5, is of this shape, so the
discount clause excludes nothing the program can store. -/
def goodCard (c : Card) : Prop :=
  c.id ≠ "" ∧ c.name ≠ "" ∧ c.status ≠ "" ∧ c.createdAt ≠ "" ∧
  ('\n') ∉ c.id.data ∧ ('\n') ∉ c.name.data ∧ ('\n') ∉ c.category.data ∧
  ('\n') ∉ c.district.data ∧ ('\n') ∉ c.status.data ∧
  ('\n') ∉ c.description.data ∧ ('\n') ∉ c.createdAt.data ∧
  ('\n') ∉ c.updatedAt.data ∧
  (c.discount = none ∨
    ∃ x : ℚ, c.discount = some (JsNum.q x) ∧ ∃ z : ℤ, x * 10 ^ 1200 = (z : ℚ))

/-! Parsed JSON values and the three storage loaders the claims cite:
S.get of the v0 cards script, load() of the v1 cards script (the coupons
script has a byte for byte identical load), and getFromLocalStorage of
src/frontend/src/utils/storage.ts.  JSON.parse itself is a JavaScript
builtin; it is modeled as an explicit parameter returning none when the
builtin would throw. -/

/-- A JavaScript value produced by JSON.parse. -/
inductive JsValue where
  | null
  | jbool (b : Bool)
  | jnum (x : ℚ)
  | jstr (s : String)
  | jarr (elems : List JsValue)
  | jobj (fields : List (String × JsValue))

/-- Array.isArray. -/
def JsValue.isArrayB : JsValue → Bool
  | JsValue.jarr _ => true
  | _ => false

/-- S.get of the v0 cards script (line 1): JSON.parse of the raw item
with a nullish-coalescing default; a missing item makes JSON.parse see
null, which parses to null and coalesces to the default; a parse throw
is caught and yields the default; any other parsed value, array or not,
is returned as is unless it is null. -/
def sGet (parse : String → Option JsValue) (raw : Option String) (d : JsValue) : JsValue :=
  match raw with
  | none => d
  | some r =>
    match parse r with
    | none => d
    | some JsValue.null => d
    | some v => v

/-- load() of the v1 cards script (lines 145-153): a falsy raw item or a
parse throw or a parsed non-array gives the demo array; only a parsed
array is accepted.  demo() draws random ids, so the demo array is an
explicit parameter of the model. -/
def loadV1 (parse : String → Option JsValue) (demo : List JsValue)
    (raw : Option String) : List JsValue :=
  match raw with
  | none => demo
  | some r =>
    if r = "" then demo
    else
      match parse r with
      | some (JsValue.jarr xs) => xs
      | some _ => demo
      | none => demo

/-- getFromLocalStorage of utils/storage.ts (lines 23-34): default on a
missing item or a parse throw, otherwise the parsed value as is (the
cast to T does nothing at runtime). -/
def getFromLocalStorage (parse : String → Option JsValue) (raw : Option String)
    (d : JsValue) : JsValue :=
  match raw with
  | none => d
  | some r =>
    match parse r with
    | none => d
    | some v => v

/-! The v0 cards widget (lines 1-30 of public/cabinet-cards.js): record
type, the filters() capture, and the list() filter-sort pipeline. -/

/-- A card record of the v0 widget (the DEF_CARDS shape). -/
structure Card0 where
  id : String
  name : String
  category : String
  district : String
  status : String
  createdAt : Int
deriving DecidableEq, Repr

/-- The filter and sort selection captured by filters() (line 11). -/
structure Filters0 where
  term : String
  cat : String
  dist : String
  st : String
  sort : String
deriving DecidableEq, Repr

/-- filters() (line 11): the search box value trimmed and lowercased,
the three select values as is, the sort value with its falsy default. -/
def filtersOf (searchV catV distV stV sortV : String) : Filters0 :=
  { term := lowerStr (trimStr searchV)
    cat := catV
    dist := distV
    st := stV
    sort := if sortV = "" then "created_desc" else sortV }

/-- List containment check modeling String.prototype.includes. -/
def startsWithCh : List Char → List Char → Bool
  | _, [] => true
  | [], _ :: _ => false
  | a :: as, b :: bs => a == b && startsWithCh as bs

/-- Substring test modeling String.prototype.includes. -/
def containsSub : List Char → List Char → Bool
  | [], pat => pat.isEmpty
  | l@(_ :: rest), pat => startsWithCh l pat || containsSub rest pat

/-- The filter predicate of list() (line 12): every active filter must
hold; the name check lowercases the name and asks for the captured term
as a substring. -/
def matches0 (f : Filters0) (r : Card0) : Bool :=
  (f.term == "" || containsSub (lowerStr r.name).data f.term.data) &&
  (f.cat == "" || r.category == f.cat) &&
  (f.dist == "" || r.district == f.dist) &&
  (f.st == "" || r.status == f.st)

/-- The comparator of the sort switch (line 13), phrased as the
at-most-or-equal relation of the JavaScript comparator: a pair is in
order exactly when the comparator is at most zero.  localeCompare is
modeled with the lexicographic string order. -/
def sortLe0 (s : String) (a b : Card0) : Bool :=
  if s = "created_asc" then decide (a.createdAt ≤ b.createdAt)
  else if s = "created_desc" then decide (b.createdAt ≤ a.createdAt)
  else if s = "name_asc" then decide (a.name ≤ b.name)
  else if s = "name_desc" then decide (b.name ≤ a.name)
  else if s = "status" then decide (a.status ≤ b.status)
  else true

/-- The sort keys the switch of list() recognizes; any other value falls
through the switch and leaves the filtered array unsorted. -/
def sortKeys : List String :=
  ["created_asc", "created_desc", "name_asc", "name_desc", "status"]

/-- The table rows list() renders (lines 12-14): filter the card array,
then sort it with the selected comparator (JavaScript sort is stable, so
a stable merge sort models it). -/
def listRows (cards : List Card0) (f : Filters0) : List Card0 :=
  let arr := cards.filter (matches0 f)
  if f.sort ∈ sortKeys then arr.mergeSort (sortLe0 f.sort) else arr

/-! JSON.stringify models.  The serializers are concrete so the storage
invariant is about honest strings; key order follows the field order of
the record types (JavaScript would follow each object's own insertion
order, which never matters to any claim), and control characters other
than the common escapes are left unescaped, a simplification that no
theorem depends on. -/

/-- JSON string escaping for the common escapes. -/
def jsonEscapeChar (c : Char) : List Char :=
  if c = '"' then ['\\', '"']
  else if c = '\\' then ['\\', '\\']
  else if c = '\n' then ['\\', 'n']
  else if c = '\r' then ['\\', 'r']
  else if c = '\t' then ['\\', 't']
  else [c]

/-- A JSON string literal. -/
def jsonStr (s : String) : List Char :=
  '"' :: (s.data.flatMap jsonEscapeChar ++ ['"'])

/-- A JSON number; JSON.stringify prints NaN as null. -/
def jsonOfJsNum : JsNum → List Char
  | JsNum.nan => ['n', 'u', 'l', 'l']
  | JsNum.q x => jsNumToChars (JsNum.q x)

/-- A JSON boolean. -/
def jsonBool : Bool → List Char
  | true => ['t', 'r', 'u', 'e']
  | false => ['f', 'a', 'l', 's', 'e']

/-- Comma separated join of serialized elements. -/
def joinComma : List (List Char) → List Char
  | [] => []
  | [l] => l
  | l :: ls => l ++ ',' :: joinComma ls

/-- JSON.stringify of one v1 card record. -/
def jsonCard (c : Card) : List Char :=
  String.data "\x7b\"id\":" ++ jsonStr c.id ++
  String.data ",\"name\":" ++ jsonStr c.name ++
  String.data ",\"category\":" ++ jsonStr c.category ++
  String.data ",\"district\":" ++ jsonStr c.district ++
  String.data ",\"discount\":" ++
    (match c.discount with
     | none => ['n', 'u', 'l', 'l']
     | some v => jsonOfJsNum v) ++
  String.data ",\"status\":" ++ jsonStr c.status ++
  String.data ",\"published\":" ++ jsonBool c.published ++
  String.data ",\"description\":" ++ jsonStr c.description ++
  String.data ",\"createdAt\":" ++ jsonStr c.createdAt ++
  String.data ",\"updatedAt\":" ++ jsonStr c.updatedAt ++ String.data "\x7d"

/-- JSON.stringify of the v1 card array. -/
def stringifyCards (cs : List Card) : String :=
  String.mk ('[' :: (joinComma (cs.map jsonCard) ++ [']']))

/-- JSON.stringify of one v0 card record. -/
def jsonCard0 (c : Card0) : List Char :=
  String.data "\x7b\"id\":" ++ jsonStr c.id ++
  String.data ",\"name\":" ++ jsonStr c.name ++
  String.data ",\"category\":" ++ jsonStr c.category ++
  String.data ",\"district\":" ++ jsonStr c.district ++
  String.data ",\"status\":" ++ jsonStr c.status ++
  String.data ",\"createdAt\":" ++ jsNumToChars (JsNum.q (c.createdAt : ℚ)) ++
  String.data "\x7d"

/-- JSON.stringify of the v0 card array. -/
def stringifyCards0 (cs : List Card0) : String :=
  String.mk ('[' :: (joinComma (cs.map jsonCard0) ++ [']']))

/-! The v1 cards widget interaction layer: the edit form capture, the
save button, the delete branch of the tbody click handler, and render().
The widget keeps its array under the fixed key ks_cards_v1. -/

/-- The local-storage key of the v1 cards widget. -/
def key1 : String := "ks_cards_v1"

/-- The local-storage key of the v0 cards widget. -/
def key0 : String := "ks_cards"

/-- The local-storage key of the coupons widget. -/
def keyC : String := "ks_coupons_v1"

/-- The edit form fields of the v1 cards widget. -/
structure Form1 where
  fId : String
  fName : String
  fCategory : String
  fDistrict : String
  fDiscount : String
  fDesc : String
  fPublished : Bool
  fStatus : String
deriving DecidableEq, Repr

/-- Alert text of fromForm for a missing name (mojibake literal copied
from the source). -/
def msgName1 : String := "Р вЂ™Р Р†Р ВµР Т‘Р С‘РЎвЂљР Вµ Р Р…Р В°Р В·Р Р†Р В°Р Р…Р С‘Р Вµ"

/-- Alert text of fromForm for a discount outside 0..99 (mojibake
literal copied from the source). -/
def msgDiscount1 : String :=
  "Р РЋР С”Р С‘Р Т‘Р С”Р В° Р Т‘Р С•Р В»Р В¶Р Р…Р В° Р В±РЎвЂ№РЎвЂљРЎРЉ РЎвЂЎР С‘РЎРѓР В»Р С•Р С 0..99"

/-- The discount capture of fromForm (line 191): empty after trim means
null, otherwise the Number() conversion of the raw field. -/
def discountFromForm (s : String) : Option JsNum :=
  if trimStr s = "" then none else some (jsNumber s)

/-- The discount validation of fromForm (line 192): a present value
fails when it is NaN or below 0 or above 99. -/
def discountBad : Option JsNum → Bool
  | none => false
  | some JsNum.nan => true
  | some (JsNum.q x) => decide (x < 0) || decide (x > 99)

/-- fromForm of the v1 cards widget (lines 188-208).  An error value
models alert(message) followed by the null return; now models the two
toISOString calls, uidv the uid() call for a fresh id. -/
def fromForm1 (now uidv : String) (cards : List Card) (f : Form1) : Except String Card :=
  let name := trimStr f.fName
  if name = "" then Except.error msgName1
  else
    let discount := discountFromForm f.fDiscount
    if discountBad discount then Except.error msgDiscount1
    else Except.ok
      { id := if f.fId = "" then uidv else f.fId
        name := name
        category := f.fCategory
        district := f.fDistrict
        discount := discount
        status := if f.fStatus = "" then (if f.fPublished then stPub1 else stDraft1)
                  else f.fStatus
        published := f.fPublished
        description := trimStr f.fDesc
        createdAt :=
          if f.fId = "" then now
          else
            match cards.find? (fun x => x.id == f.fId) with
            | some c => if c.createdAt = "" then now else c.createdAt
            | none => now
        updatedAt := now }

/-- The state of the v1 cards widget: its in-memory array and the
browser local storage (a map from keys to stored strings). -/
structure St1 where
  cards : List Card
  store : String → Option String

/-- localStorage.setItem. -/
def setItem (st : String → Option String) (k v : String) : String → Option String :=
  fun q => if q = k then some v else st q

/-- save() of the v1 cards widget (line 154): stringify the current
array under ks_cards_v1. -/
def saveSt1 (st : St1) : St1 :=
  { st with store := setItem st.store key1 (stringifyCards st.cards) }

/-- The upsert of the save button (lines 219-225): replace the first
record with the same id in place, otherwise unshift at the front. -/
def saveUpsert (cards : List Card) (obj : Card) : List Card :=
  match cards.findIdx? (fun x => x.id == obj.id) with
  | some i => cards.set i obj
  | none => obj :: cards

/-- The btnSave click handler (lines 219-225): a null fromForm returns
with the state untouched; otherwise upsert, save, render. -/
def btnSave1 (now uidv : String) (f : Form1) (st : St1) : St1 :=
  match fromForm1 now uidv st.cards f with
  | Except.error _ => st
  | Except.ok obj => saveSt1 { st with cards := saveUpsert st.cards obj }

/-- The data-del branch of the tbody click handler (lines 238-245):
only an id present in the array reaches the confirm dialog; a confirmed
delete filters the array and saves. -/
def delClick1 (id : String) (confirmAns : Bool) (st : St1) : St1 :=
  match st.cards.find? (fun x => x.id == id) with
  | none => st
  | some _ =>
    if confirmAns then saveSt1 { st with cards := st.cards.filter (fun x => x.id != id) }
    else st

/-- The filter state of the v1 cards widget render(). -/
structure Filters1 where
  q : String
  category : String
  district : String
  status : String
deriving DecidableEq, Repr

/-- The filter predicate of render() (lines 95-101). -/
def matches1 (f : Filters1) (c : Card) : Bool :=
  (f.q == "" || containsSub (lowerStr c.name).data f.q.data) &&
  (f.category == "" || c.category == f.category) &&
  (f.district == "" || c.district == f.district) &&
  (f.status == "" || c.status == f.status)

/-- Number(v || 0) applied to the discount field in the render sort:
null, undefined and NaN are falsy and collapse to 0. -/
def numOr0 : Option JsNum → ℚ
  | none => 0
  | some JsNum.nan => 0
  | some (JsNum.q x) => x

/-- The generic render() comparator (lines 103-108) as the
at-most-or-equal relation: string columns compare as strings, the
discount column numerically, a descending direction flips the pair,
an unknown column compares undefined with undefined and every pair is
in order. -/
def cmpLe1 (sb : String) (asc : Bool) (a b : Card) : Bool :=
  if sb = "discount" then
    (if asc then decide (numOr0 a.discount ≤ numOr0 b.discount)
     else decide (numOr0 b.discount ≤ numOr0 a.discount))
  else if sb = "id" then (if asc then decide (a.id ≤ b.id) else decide (b.id ≤ a.id))
  else if sb = "name" then (if asc then decide (a.name ≤ b.name) else decide (b.name ≤ a.name))
  else if sb = "category" then
    (if asc then decide (a.category ≤ b.category) else decide (b.category ≤ a.category))
  else if sb = "district" then
    (if asc then decide (a.district ≤ b.district) else decide (b.district ≤ a.district))
  else if sb = "status" then
    (if asc then decide (a.status ≤ b.status) else decide (b.status ≤ a.status))
  else true

/-- The rows render() draws (lines 93-129): filter, then stable sort. -/
def renderRows1 (cards : List Card) (f : Filters1) (sb : String) (asc : Bool) : List Card :=
  (cards.filter (matches1 f)).mergeSort (cmpLe1 sb asc)

/-! The v0 cards widget mutating operations (lines 15-27 of
public/cabinet-cards.js) and the coupons widget (the ks_coupons_v1
script), leading to the whole-application step function that claim C7
quantifies over. -/

/-- In place update of one list position, modeling the assignment
cards[i] = value on a JavaScript array. -/
def modifyAt (g : α → α) : Nat → List α → List α
  | _, [] => []
  | 0, a :: as => g a :: as
  | n + 1, a :: as => a :: modifyAt g n as

/-- The v0 card form values (the #f-name, #f-category, #f-district and
#f-status inputs plus the dataset editId of the form). -/
structure Form0 where
  name : String
  category : String
  district : String
  status : String
  editId : String
deriving DecidableEq, Repr

/-- saveForm of the v0 widget (line 17): an empty trimmed name alerts
and returns; an edit id merges the form data over the first record with
that id (keeping its id and createdAt) and changes nothing when the id
is stale; an empty edit id unshifts a fresh record; either way the
array is saved under ks_cards. -/
def v0saveForm (nowMs : Int) (uidv : String) (f : Form0)
    (cards : List Card0) : Option (List Card0) :=
  let name := trimStr f.name
  if name = "" then none
  else
    let cat := if f.category = "" then "Кафе" else f.category
    let dist := if f.district = "" then "Центральный" else f.district
    let stt := if f.status = "" then "Опубликовано" else f.status
    let merged := fun (c : Card0) =>
      { c with name := name, category := cat, district := dist, status := stt }
    some <|
      if f.editId ≠ "" then
        match cards.findIdx? (fun x => x.id == f.editId) with
        | some i => modifyAt merged i cards
        | none => cards
      else
        { id := uidv, name := name, category := cat, district := dist,
          status := stt, createdAt := nowMs } :: cards

/-- setPub of the v0 widget (line 18): a stale id returns, otherwise
the status of the first record with the id is overwritten and the array
saved. -/
def v0setPub (id : String) (val : Bool) (cards : List Card0) : Option (List Card0) :=
  match cards.findIdx? (fun x => x.id == id) with
  | none => none
  | some i =>
    some (modifyAt
      (fun c => { c with status := if val then "Опубликовано" else "Черновик" })
      i cards)

/-- delCard of the v0 widget (line 19): a declined confirm returns,
otherwise every record with the id is filtered out and the array
saved. -/
def v0delCard (id : String) (confirmAns : Bool) (cards : List Card0) : Option (List Card0) :=
  if confirmAns then some (cards.filter (fun x => x.id != id)) else none

/-- The JSON import of the v0 widget (line 27): a parse throw or a
non-array alerts and changes nothing; an array replaces the card array
wholesale and is saved.  The handler performs no per-element
validation, so the decoded array is the input of the model. -/
def v0importJson (arr : Option (List Card0)) : Option (List Card0) :=
  match arr with
  | some a => some a
  | none => none

/-- A coupon record as the coupons widget constructs it. -/
structure Coupon where
  id : String
  title : String
  code : String
  discountType : String
  value : Option JsNum
  start : String
  end_ : String
  maxUses : JsNum
  used : JsNum
  minPurchase : JsNum
  published : Bool
  description : String
  updatedAt : String
  createdAt : String
deriving DecidableEq, Repr

/-- The number-or-zero coercion v || 0 on a JavaScript number (0 and
NaN are falsy). -/
def jsOr0 : JsNum → JsNum
  | JsNum.nan => JsNum.q 0
  | JsNum.q x => JsNum.q x

/-- Number(s || 0): an empty string input collapses to 0. -/
def numberOr0 (s : String) : JsNum :=
  if s = "" then JsNum.q 0 else jsNumber s

/-- The coupon edit form values. -/
structure FormC where
  fId : String
  title : String
  code : String
  discountType : String
  value : String
  start : String
  end_ : String
  maxUses : String
  minPurchase : String
  published : Bool
  description : String
deriving DecidableEq, Repr

/-- fromForm of the coupons widget (lines 565-590): trimmed title and
code (uppercased) both required, the value must be a positive number,
and a start date after the end date rejects.  The Date comparison of
two date-input strings is a builtin, modeled as the dateGt parameter.
A none return models alert plus null. -/
def cpFromForm (dateGt : String → String → Bool) (now uidv : String)
    (coupons : List Coupon) (f : FormC) : Option Coupon :=
  let title := trimStr f.title
  let code := upperStr (trimStr f.code)
  if title = "" then none
  else if code = "" then none
  else
    let value := if f.value = "" then none else some (jsNumber f.value)
    match value with
    | none => none
    | some JsNum.nan => none
    | some (JsNum.q x) =>
      if x ≤ 0 then none
      else
        let start := trimStr f.start
        let end_ := trimStr f.end_
        if start ≠ "" && end_ ≠ "" && dateGt start end_ then none
        else some
          { id := if f.fId = "" then uidv else f.fId
            title := title
            code := code
            discountType := if f.discountType = "" then "percent" else f.discountType
            value := some (JsNum.q x)
            start := start
            end_ := end_
            maxUses := numberOr0 f.maxUses
            used := match coupons.find? (fun c => c.id == f.fId) with
                    | some c => jsOr0 c.used
                    | none => JsNum.q 0
            minPurchase := numberOr0 f.minPurchase
            published := f.published
            description := trimStr f.description
            updatedAt := now
            createdAt := match coupons.find? (fun c => c.id == f.fId) with
                         | some c => if c.createdAt = "" then now else c.createdAt
                         | none => now }

/-- One imported coupon record (lines 740-755 of the coupons script). -/
def importCoupon (uidv now : String) (hdr : List (List Char))
    (r : List (List Char)) : Coupon :=
  let cell := fun (k : String) => cellAt r (indexOfAux hdr k.data 0)
  { id := if (cell ("id")).isEmpty then uidv else String.mk (cell ("id"))
    title := String.mk (cell ("title"))
    code := upperStr (String.mk (cell ("code")))
    discountType := if (cell ("discountType")).isEmpty then "percent"
                    else String.mk (cell ("discountType"))
    value := if (cell ("value")).isEmpty then none
             else some (jsNumber (String.mk (cell ("value"))))
    start := String.mk (cell ("start"))
    end_ := String.mk (cell ("end"))
    maxUses := if (cell ("maxUses")).isEmpty then JsNum.q 0
               else jsNumber (String.mk (cell ("maxUses")))
    used := if (cell ("used")).isEmpty then JsNum.q 0
            else jsNumber (String.mk (cell ("used")))
    minPurchase := if (cell ("minPurchase")).isEmpty then JsNum.q 0
                   else jsNumber (String.mk (cell ("minPurchase")))
    published := lowerStr (String.mk (cell ("published"))) = "true"
    description := String.mk (cell ("description"))
    createdAt := if (cell ("createdAt")).isEmpty then now
                 else String.mk (cell ("createdAt"))
    updatedAt := now }

/-- The coupon import upsert loop (lines 738-759): a record is taken
only when both title and code are truthy; replace in place by id or
push at the back. -/
def cpImportRowsLoop (uidF : Nat → String) (now : String) (hdr : List (List Char)) :
    Nat → List (List (List Char)) → List Coupon → List Coupon
  | _, [], coupons => coupons
  | k, r :: rs, coupons =>
    if r.isEmpty then cpImportRowsLoop uidF now hdr (k + 1) rs coupons
    else
      let obj := importCoupon (uidF k) now hdr r
      cpImportRowsLoop uidF now hdr (k + 1) rs
        (if obj.title.isEmpty || obj.code.isEmpty then coupons
         else
           match coupons.findIdx? (fun x => x.id == obj.id) with
           | some i => coupons.set i obj
           | none => coupons ++ [obj])

/-- The whole coupons CSV import. -/
def cpImportCsvInto (uidF : Nat → String) (now : String) (text : String)
    (coupons : List Coupon) : List Coupon :=
  let rows := parseCsvRows text.data
  cpImportRowsLoop uidF now (rows.headD []) 0 rows.tail coupons

/-- JSON.stringify of one coupon record. -/
def jsonCoupon (c : Coupon) : List Char :=
  String.data "\x7b\"id\":" ++ jsonStr c.id ++
  String.data ",\"title\":" ++ jsonStr c.title ++
  String.data ",\"code\":" ++ jsonStr c.code ++
  String.data ",\"discountType\":" ++ jsonStr c.discountType ++
  String.data ",\"value\":" ++
    (match c.value with
     | none => ['n', 'u', 'l', 'l']
     | some v => jsonOfJsNum v) ++
  String.data ",\"start\":" ++ jsonStr c.start ++
  String.data ",\"end\":" ++ jsonStr c.end_ ++
  String.data ",\"maxUses\":" ++ jsonOfJsNum c.maxUses ++
  String.data ",\"used\":" ++ jsonOfJsNum c.used ++
  String.data ",\"minPurchase\":" ++ jsonOfJsNum c.minPurchase ++
  String.data ",\"published\":" ++ jsonBool c.published ++
  String.data ",\"description\":" ++ jsonStr c.description ++
  String.data ",\"updatedAt\":" ++ jsonStr c.updatedAt ++
  String.data ",\"createdAt\":" ++ jsonStr c.createdAt ++ String.data "\x7d"

/-- JSON.stringify of the coupon array. -/
def stringifyCoupons (cs : List Coupon) : String :=
  String.mk ('[' :: (joinComma (cs.map jsonCoupon) ++ [']']))

/-! The whole-application state and the completed mutating operations of
the three CRUD widgets, for the storage invariant of claim C7. -/

/-- The in-memory arrays of the three widgets plus the shared browser
local storage. -/
structure AppSt where
  cards0 : List Card0
  cards1 : List Card
  coupons : List Coupon
  store : String → Option String

/-- One user-triggered mutating operation of a CRUD widget.  Impure
builtins reached inside an operation (Date.now, toISOString, uid
randomness, the Date comparison, the decoded JSON of the v0 import)
travel as constructor arguments. -/
inductive Op where
  | v0save (nowMs : Int) (uidv : String) (f : Form0)
  | v0pub (id : String) (val : Bool)
  | v0del (id : String) (confirmAns : Bool)
  | v0import (arr : Option (List Card0))
  | v1save (now uidv : String) (f : Form1)
  | v1del (id : String) (confirmAns : Bool)
  | v1importCsv (uidF : Nat → String) (now : String) (text : String)
  | cpSave (dateGt : String → String → Bool) (now uidv : String) (f : FormC)
  | cpDel (id : String) (confirmAns : Bool)
  | cpImportCsv (uidF : Nat → String) (now : String) (text : String)

/-- Commit a new v0 card array: S.set under ks_cards (lines 17-19). -/
def commit0 (cards : List Card0) (st : AppSt) : AppSt :=
  { st with cards0 := cards,
            store := setItem st.store key0 (stringifyCards0 cards) }

/-- Commit a new v1 card array: save() under ks_cards_v1 (line 154). -/
def commit1 (cards : List Card) (st : AppSt) : AppSt :=
  { st with cards1 := cards,
            store := setItem st.store key1 (stringifyCards cards) }

/-- Commit a new coupon array: save() under ks_coupons_v1 (line 478 of
the coupons script). -/
def commitC (coupons : List Coupon) (st : AppSt) : AppSt :=
  { st with coupons := coupons,
            store := setItem st.store keyC (stringifyCoupons coupons) }

/-- The step function: how each completed handler run transforms the
application state.  Handlers that bail out (failed validation, declined
confirm, stale id, bad JSON) leave the state untouched; every handler
that mutates ends by serializing its whole array under its widget's
fixed key, mirroring the source where each mutation path ends in
S.set or save(). -/
def applyOp (op : Op) (st : AppSt) : AppSt :=
  match op with
  | Op.v0save nowMs uidv f =>
    match v0saveForm nowMs uidv f st.cards0 with
    | none => st
    | some cards => commit0 cards st
  | Op.v0pub id val =>
    match v0setPub id val st.cards0 with
    | none => st
    | some cards => commit0 cards st
  | Op.v0del id confirmAns =>
    match v0delCard id confirmAns st.cards0 with
    | none => st
    | some cards => commit0 cards st
  | Op.v0import arr =>
    match v0importJson arr with
    | none => st
    | some cards => commit0 cards st
  | Op.v1save now uidv f =>
    match fromForm1 now uidv st.cards1 f with
    | Except.error _ => st
    | Except.ok obj => commit1 (saveUpsert st.cards1 obj) st
  | Op.v1del id confirmAns =>
    match st.cards1.find? (fun x => x.id == id) with
    | none => st
    | some _ =>
      if confirmAns then commit1 (st.cards1.filter (fun x => x.id != id)) st
      else st
  | Op.v1importCsv uidF now text =>
    commit1 (importCsvInto uidF now text st.cards1) st
  | Op.cpSave dateGt now uidv f =>
    match cpFromForm dateGt now uidv st.coupons f with
    | none => st
    | some obj =>
      commitC
        (match st.coupons.findIdx? (fun x => x.id == obj.id) with
         | some i => st.coupons.set i obj
         | none => obj :: st.coupons) st
  | Op.cpDel id confirmAns =>
    match st.coupons.find? (fun x => x.id == id) with
    | none => st
    | some _ =>
      if confirmAns then commitC (st.coupons.filter (fun x => x.id != id)) st
      else st
  | Op.cpImportCsv uidF now text =>
    commitC (cpImportCsvInto uidF now text st.coupons) st

/-- The storage invariant of claim C7: under each widget's fixed key the
stored string is the JSON of that widget's current array. -/
def StoreInv (st : AppSt) : Prop :=
  st.store key0 = some (stringifyCards0 st.cards0) ∧
  st.store key1 = some (stringifyCards st.cards1) ∧
  st.store keyC = some (stringifyCoupons st.coupons)

/-! The Express static server (the server script among the unnamed
sources): fixed GET routes to HTML files of the public directory,
behind the express.static middleware, in front of a catch-all 404.
The two route registrations that appear after the catch-all can never
run, because the catch-all middleware matches every request first and
does not call next; the chain below therefore ends at the catch-all. -/

/-- The route table, in registration order (lines 50-60). -/
def routeTable : List (String × String) :=
  [("/", "index.html"),
   ("/cabinet", "cabinet.html"),
   ("/cabinet/cards", "cabinet-cards.html"),
   ("/cabinet/qr", "cabinet-qr.html"),
   ("/cabinet/districts", "cabinet-districts.html"),
   ("/cabinet/reviews", "cabinet-reviews.html"),
   ("/cabinet/analytics", "cabinet-analytics.html"),
   ("/cabinet/integrations", "cabinet-integrations.html"),
   ("/cabinet/team", "cabinet-team.html"),
   ("/cabinet/settings", "cabinet-settings.html"),
   ("/cabinet/support", "cabinet-support.html")]

/-- An HTTP method, as far as the routing distinguishes them. -/
inductive HMethod where
  | get
  | other
deriving DecidableEq, Repr

/-- The response of the server chain. -/
inductive HResp where
  | staticFile (f : String)
  | htmlFile (f : String)
  | notFound (body : String)
deriving DecidableEq, Repr

/-- First match in the route table. -/
def lookupRoute : List (String × String) → String → Option String
  | [], _ => none
  | (p, f) :: rest, q => if p = q then some f else lookupRoute rest q

/-- The middleware chain (lines 41-62): express.static first (the file
resolution of the public directory is a filesystem lookup, modeled as
the staticLookup parameter), then the eleven GET routes each sending an
HTML file of the public directory, then the catch-all answering status
404 with the text body Not Found. -/
def handleReq (staticLookup : String → Option String) (m : HMethod)
    (p : String) : HResp :=
  match staticLookup p with
  | some f => HResp.staticFile f
  | none =>
    match m with
    | HMethod.get =>
      match lookupRoute routeTable p with
      | some f => HResp.htmlFile f
      | none => HResp.notFound "Not Found"
    | HMethod.other => HResp.notFound "Not Found"

/-! Frontend validation utility (src/frontend/src/utils/validation.ts). -/

/-- Message returned by validatePassword for a too short password. -/
def msgLen : String := "Пароль должен содержать минимум 8 символов"

/-- Message returned by validatePassword when no uppercase letter. -/
def msgUpper : String := "Пароль должен содержать хотя бы одну заглавную букву"

/-- Message returned by validatePassword when no digit. -/
def msgDigit : String := "Пароль должен содержать хотя бы одну цифру"

/-- The regex test /[A-Z]/.test: some character is an uppercase ASCII
Latin letter. -/
def hasUpperAZ (s : String) : Bool := s.data.any fun c => 'A' ≤ c && c ≤ 'Z'

/-- The regex test /[0-9]/.test: some character is an ASCII digit. -/
def hasDigit09 (s : String) : Bool := s.data.any fun c => '0' ≤ c && c ≤ '9'

/-- validatePassword from utils/validation.ts: length at least 8, a
regex test /[A-Z]/ and a regex test /[0-9]/, first failure reported. -/
def validatePassword (password : String) : Option String :=
  if password.length < 8 then some msgLen
  else if !hasUpperAZ password then some msgUpper
  else if !hasDigit09 password then some msgDigit
  else none

/-! Helper lemmas shared by several claims. -/

/-- setItem answers the written key with the written value. -/
theorem setItem_same (s : String → Option String) (k v : String) :
    setItem s k v k = some v := by
  simp [setItem]

/-- setItem leaves every other key alone. -/
theorem setItem_other (s : String → Option String) (k v q : String) (h : q ≠ k) :
    setItem s k v q = s q := by
  simp [setItem, h]

/-- A first-match lookup finds a table entry when the keys repeat
nowhere. -/
theorem lookupRoute_of_mem (t : List (String × String)) (p f : String)
    (hnodup : (t.map Prod.fst).Nodup) (hmem : (p, f) ∈ t) :
    lookupRoute t p = some f := by
  induction t with
  | nil => cases hmem
  | cons hd tl ih =>
    obtain ⟨q, g⟩ := hd
    simp only [List.map_cons, List.nodup_cons] at hnodup
    rcases List.mem_cons.1 hmem with heq | htl
    · cases heq
      simp [lookupRoute]
    · have hq : q ≠ p := by
        intro rfl'
        subst rfl'
        exact hnodup.1 (List.mem_map_of_mem Prod.fst htl)
      simp only [lookupRoute, if_neg hq]
      exact ih hnodup.2 htl

/-! C9, the password validator. -/

/-- C9: validatePassword returns null exactly when the password has
length at least 8, contains an uppercase ASCII Latin letter and
contains a digit; the first failed check in the order length,
uppercase, digit names the message; no lowercase letter and no special
character is required (the final conjunct exhibits an accepted password
with neither). -/
theorem c9_validate_password (p : String) :
    (validatePassword p = none ↔
      8 ≤ p.length ∧ hasUpperAZ p = true ∧ hasDigit09 p = true) ∧
    (p.length < 8 → validatePassword p = some msgLen) ∧
    (8 ≤ p.length → hasUpperAZ p = false → validatePassword p = some msgUpper) ∧
    (8 ≤ p.length → hasUpperAZ p = true → hasDigit09 p = false →
      validatePassword p = some msgDigit) ∧
    (hasUpperAZ p = true ↔ ∃ c ∈ p.data, 'A' ≤ c ∧ c ≤ 'Z') ∧
    (hasDigit09 p = true ↔ ∃ c ∈ p.data, '0' ≤ c ∧ c ≤ '9') ∧
    validatePassword ("PASSWORD1") = none := by
  refine ⟨?_, ?_, ?_, ?_, ?_, ?_, by decide⟩
  · by_cases h1 : p.length < 8
    · have hle : ¬ 8 ≤ p.length := by omega
      simp [validatePassword, h1, hle]
    · have hle : 8 ≤ p.length := by omega
      by_cases h2 : hasUpperAZ p <;> by_cases h3 : hasDigit09 p <;>
        simp [validatePassword, h1, h2, h3, hle]
  · intro h1
    simp [validatePassword, h1]
  · intro h1 h2
    simp [validatePassword, h2, Nat.not_lt.2 h1]
  · intro h1 h2 h3
    simp [validatePassword, h2, h3, Nat.not_lt.2 h1]
  · simp [hasUpperAZ]
  · simp [hasDigit09]

/-! C8, the Express routing. -/

/-- C8: when the static middleware does not resolve the path, a GET on
any of the eleven fixed routes answers with the mapped HTML file of the
public directory, and any request whose path is in no route answers 404
with body Not Found. -/
theorem c8_routes (staticLookup : String → Option String) (p f : String)
    (hstatic : staticLookup p = none) :
    ((p, f) ∈ routeTable → handleReq staticLookup HMethod.get p = HResp.htmlFile f) ∧
    (lookupRoute routeTable p = none →
      ∀ m, handleReq staticLookup m p = HResp.notFound ("Not Found")) := by
  constructor
  · intro hmem
    have hl : lookupRoute routeTable p = some f :=
      lookupRoute_of_mem routeTable p f (by decide) hmem
    simp [handleReq, hstatic, hl]
  · intro hl m
    cases m <;> simp [handleReq, hstatic, hl]

/-- Witness for C8 at concrete requests: the cards route sends its HTML
file and an unknown path is answered 404. -/
theorem c8_routes_witness :
    handleReq (fun _ => none) HMethod.get ("/cabinet/cards") =
      HResp.htmlFile ("cabinet-cards.html") ∧
    handleReq (fun _ => none) HMethod.other ("/nonexistent") =
      HResp.notFound ("Not Found") := by
  constructor
  · exact (c8_routes (fun _ => none) ("/cabinet/cards") ("cabinet-cards.html") rfl).1
      (by decide)
  · exact (c8_routes (fun _ => none) ("/nonexistent") ("") rfl).2 (by decide) HMethod.other

/-! C3, the storage loaders. -/

/-- C3 as stated is false: a stored string that parses to a non-array,
non-null value is returned as is by S.get of the v0 cards widget, not
replaced by the default array.  With the number 42 stored under the key
(JSON.parse of the string 42 yields 42), S.get answers 42 and not the
default. -/
theorem c3_counterexample :
    sGet (fun _ => some (JsValue.jnum 42)) (some ("42")) (JsValue.jarr []) ≠
      JsValue.jarr [] := by
  simp [sGet]

/-- C3 amended: on a JSON.parse throw every loader silently falls back
to its default or demo array; a parsed non-array additionally falls
back to the demo array in the v1 load(), while S.get returns any parsed
non-null value as is and getFromLocalStorage returns any parsed value
as is. -/
theorem c3_parse_fallback (parse : String → Option JsValue) (raw : String)
    (d : JsValue) (demo : List JsValue) :
    (parse raw = none →
      sGet parse (some raw) d = d ∧
      getFromLocalStorage parse (some raw) d = d ∧
      loadV1 parse demo (some raw) = demo) ∧
    (∀ v, parse raw = some v → v.isArrayB = false →
      loadV1 parse demo (some raw) = demo) ∧
    (∀ v, parse raw = some v → v ≠ JsValue.null →
      sGet parse (some raw) d = v) ∧
    (∀ v, parse raw = some v →
      getFromLocalStorage parse (some raw) d = v) := by
  refine ⟨?_, ?_, ?_, ?_⟩
  · intro hp
    refine ⟨?_, ?_, ?_⟩
    · simp [sGet, hp]
    · simp [getFromLocalStorage, hp]
    · by_cases hr : raw = "" <;> simp [loadV1, hp, hr]
  · intro v hp hv
    by_cases hr : raw = ""
    · simp [loadV1, hr]
    · cases v <;> simp_all [loadV1, JsValue.isArrayB]
  · intro v hp hv
    cases v <;> simp_all [sGet]
  · intro v hp
    simp [getFromLocalStorage, hp]

/-- Witness for C3 amended at a concrete failing parse and at a
concrete parsed number passed through by getFromLocalStorage. -/
theorem c3_parse_fallback_witness :
    sGet (fun _ => none) (some ("\x7b")) (JsValue.jarr []) = JsValue.jarr [] ∧
    loadV1 (fun _ => none) [] (some ("\x7b")) = [] ∧
    getFromLocalStorage (fun _ => some (JsValue.jnum 42)) (some ("42"))
      (JsValue.jarr []) = JsValue.jnum 42 := by
  have h := c3_parse_fallback (fun _ => none) ("\x7b") (JsValue.jarr []) []
  have h2 := c3_parse_fallback (fun _ => some (JsValue.jnum 42)) ("42")
    (JsValue.jarr []) []
  exact ⟨(h.1 rfl).1, (h.1 rfl).2.2, h2.2.2.2 (JsValue.jnum 42) rfl⟩

/-! C6, failed validation of the v1 card form. -/

/-- C6: when the required name is empty after trimming, or the discount
fails the numeric 0..99 validation, fromForm alerts (the error message)
and returns null, and the save click leaves the widget state, array and
storage both, untouched. -/
theorem c6_failed_save (now uidv : String) (f : Form1) (st : St1)
    (h : trimStr f.fName = "" ∨ discountBad (discountFromForm f.fDiscount) = true) :
    (∃ msg, fromForm1 now uidv st.cards f = Except.error msg) ∧
    btnSave1 now uidv f st = st := by
  have herr : ∃ msg, fromForm1 now uidv st.cards f = Except.error msg := by
    by_cases hn : trimStr f.fName = ""
    · exact ⟨msgName1, by simp [fromForm1, hn]⟩
    · rcases h with h | h
      · exact absurd h hn
      · exact ⟨msgDiscount1, by simp [fromForm1, hn, h]⟩
  obtain ⟨msg, hmsg⟩ := herr
  refine ⟨⟨msg, hmsg⟩, ?_⟩
  simp [btnSave1, hmsg]

/-- Witness for C6: a concrete form with a blank name changes nothing. -/
theorem c6_failed_save_witness :
    btnSave1 ("T") ("u1")
      { fId := "", fName := "  ", fCategory := "", fDistrict := "",
        fDiscount := "", fDesc := "", fPublished := false, fStatus := "" }
      { cards := [], store := fun _ => none } =
      { cards := [], store := fun _ => none } :=
  (c6_failed_save ("T") ("u1") _ _ (Or.inl (by decide))).2

/-! C7, the storage invariant. -/

/-- commit0 reestablishes the invariant. -/
theorem storeInv_commit0 (cards : List Card0) (st : AppSt) (h : StoreInv st) :
    StoreInv (commit0 cards st) := by
  refine ⟨?_, ?_, ?_⟩
  · show setItem st.store key0 (stringifyCards0 cards) key0 = some (stringifyCards0 cards)
    exact setItem_same _ _ _
  · show setItem st.store key0 (stringifyCards0 cards) key1 = some (stringifyCards st.cards1)
    rw [setItem_other _ _ _ _ (by decide)]
    exact h.2.1
  · show setItem st.store key0 (stringifyCards0 cards) keyC = some (stringifyCoupons st.coupons)
    rw [setItem_other _ _ _ _ (by decide)]
    exact h.2.2

/-- commit1 reestablishes the invariant. -/
theorem storeInv_commit1 (cards : List Card) (st : AppSt) (h : StoreInv st) :
    StoreInv (commit1 cards st) := by
  refine ⟨?_, ?_, ?_⟩
  · show setItem st.store key1 (stringifyCards cards) key0 = some (stringifyCards0 st.cards0)
    rw [setItem_other _ _ _ _ (by decide)]
    exact h.1
  · show setItem st.store key1 (stringifyCards cards) key1 = some (stringifyCards cards)
    exact setItem_same _ _ _
  · show setItem st.store key1 (stringifyCards cards) keyC = some (stringifyCoupons st.coupons)
    rw [setItem_other _ _ _ _ (by decide)]
    exact h.2.2

/-- commitC reestablishes the invariant. -/
theorem storeInv_commitC (coupons : List Coupon) (st : AppSt) (h : StoreInv st) :
    StoreInv (commitC coupons st) := by
  refine ⟨?_, ?_, ?_⟩
  · show setItem st.store keyC (stringifyCoupons coupons) key0 = some (stringifyCards0 st.cards0)
    rw [setItem_other _ _ _ _ (by decide)]
    exact h.1
  · show setItem st.store keyC (stringifyCoupons coupons) key1 = some (stringifyCards st.cards1)
    rw [setItem_other _ _ _ _ (by decide)]
    exact h.2.1
  · show setItem st.store keyC (stringifyCoupons coupons) keyC = some (stringifyCoupons coupons)
    exact setItem_same _ _ _

/-- C7: every completed mutating operation of the three CRUD widgets
ends by writing JSON.stringify of its whole current array under its
widget's fixed key, so the invariant that each stored value equals the
JSON of the current in-memory array is preserved by every operation. -/
theorem c7_storage_invariant (op : Op) (st : AppSt) (h : StoreInv st) :
    StoreInv (applyOp op st) := by
  cases op with
  | v0save nowMs uidv f =>
    cases hv : v0saveForm nowMs uidv f st.cards0 with
    | none => simpa [applyOp, hv] using h
    | some cards =>
      simpa only [applyOp, hv] using storeInv_commit0 cards st h
  | v0pub id val =>
    cases hv : v0setPub id val st.cards0 with
    | none => simpa [applyOp, hv] using h
    | some cards => simpa only [applyOp, hv] using storeInv_commit0 cards st h
  | v0del id confirmAns =>
    cases hv : v0delCard id confirmAns st.cards0 with
    | none => simpa [applyOp, hv] using h
    | some cards => simpa only [applyOp, hv] using storeInv_commit0 cards st h
  | v0import arr =>
    cases hv : v0importJson arr with
    | none => simpa [applyOp, hv] using h
    | some cards => simpa only [applyOp, hv] using storeInv_commit0 cards st h
  | v1save now uidv f =>
    cases hv : fromForm1 now uidv st.cards1 f with
    | error msg => simpa [applyOp, hv] using h
    | ok obj =>
      simpa only [applyOp, hv] using storeInv_commit1 (saveUpsert st.cards1 obj) st h
  | v1del id confirmAns =>
    cases hv : st.cards1.find? (fun x => x.id == id) with
    | none => simpa [applyOp, hv] using h
    | some c =>
      cases confirmAns with
      | false => simpa [applyOp, hv] using h
      | true =>
        simpa only [applyOp, hv, if_true] using
          storeInv_commit1 (st.cards1.filter (fun x => x.id != id)) st h
  | v1importCsv uidF now text =>
    simpa only [applyOp] using
      storeInv_commit1 (importCsvInto uidF now text st.cards1) st h
  | cpSave dateGt now uidv f =>
    cases hv : cpFromForm dateGt now uidv st.coupons f with
    | none => simpa [applyOp, hv] using h
    | some obj =>
      simpa only [applyOp, hv] using storeInv_commitC _ st h
  | cpDel id confirmAns =>
    cases hv : st.coupons.find? (fun x => x.id == id) with
    | none => simpa [applyOp, hv] using h
    | some c =>
      cases confirmAns with
      | false => simpa [applyOp, hv] using h
      | true =>
        simpa only [applyOp, hv, if_true] using
          storeInv_commitC (st.coupons.filter (fun x => x.id != id)) st h
  | cpImportCsv uidF now text =>
    simpa only [applyOp] using
      storeInv_commitC (cpImportCsvInto uidF now text st.coupons) st h

/-- Witness for C7: the invariant holds at a concrete initial state and
is carried through a concrete delete operation. -/
theorem c7_storage_invariant_witness :
    StoreInv (applyOp (Op.v0del ("a") true)
      { cards0 := [], cards1 := [], coupons := [],
        store := fun k =>
          if k = key0 then some (stringifyCards0 [])
          else if k = key1 then some (stringifyCards [])
          else if k = keyC then some (stringifyCoupons []) else none }) :=
  c7_storage_invariant (Op.v0del ("a") true) _ (by refine ⟨?_, ?_, ?_⟩ <;> decide)

/-! C2, the v1 delete action. -/

/-- C2: deleting an id present in the array (confirm accepted) leaves
exactly the records whose id differs, stores the JSON of the new array
under ks_cards_v1, and no row of the subsequently rendered table
carries the deleted id. -/
theorem c2_delete (st : St1) (id : String) (f : Filters1) (sb : String) (asc : Bool)
    (h : ∃ c ∈ st.cards, c.id = id) :
    (delClick1 id true st).cards = st.cards.filter (fun x => x.id != id) ∧
    (delClick1 id true st).store key1 =
      some (stringifyCards ((delClick1 id true st).cards)) ∧
    ∀ r ∈ renderRows1 (delClick1 id true st).cards f sb asc, r.id ≠ id := by
  obtain ⟨c, hc, hcid⟩ := h
  have hsome : (st.cards.find? (fun x => x.id == id)).isSome := by
    rw [List.find?_isSome]
    exact ⟨c, hc, by simp [hcid]⟩
  obtain ⟨c', hfind⟩ := Option.isSome_iff_exists.1 hsome
  have hcards : (delClick1 id true st).cards = st.cards.filter (fun x => x.id != id) := by
    simp [delClick1, hfind, saveSt1]
  refine ⟨hcards, ?_, ?_⟩
  · simp [delClick1, hfind, saveSt1, setItem_same, hcards]
  · intro r hr
    rw [hcards] at hr
    simp only [renderRows1] at hr
    have h1 := List.mem_mergeSort.1 hr
    have h2 := (List.mem_filter.1 h1).1
    have h3 := (List.mem_filter.1 h2).2
    simpa using h3

/-- Witness for C2: deleting the only card of a concrete state empties
the array, updates the stored JSON, and renders no row with the id. -/
theorem c2_delete_witness :
    (delClick1 ("a") true
        { cards := [{ id := "a", name := "n", category := "", district := "",
                      discount := none, status := "s", published := false,
                      description := "", createdAt := "t", updatedAt := "u" }],
          store := fun _ => none }).cards = [] := by
  have h := c2_delete
    { cards := [{ id := "a", name := "n", category := "", district := "",
                  discount := none, status := "s", published := false,
                  description := "", createdAt := "t", updatedAt := "u" }],
      store := fun _ => none }
    ("a") { q := "", category := "", district := "", status := "" } ("name") true
    ⟨_, List.mem_singleton.2 rfl, rfl⟩
  rw [h.1]
  decide

/-- Witness for C9 at concrete passwords: a short password reports the
length message and a password with upper case and digit passes. -/
theorem c9_validate_password_witness :
    validatePassword ("short") = some msgLen ∧
    validatePassword ("Abcdefg1") = none := by
  constructor
  · exact (c9_validate_password ("short")).2.1 (by decide)
  · exact (c9_validate_password ("Abcdefg1")).1.2 ⟨by decide, by decide, by decide⟩

/-! C4, the v0 filter-sort-render pipeline. -/

/-- Reduction of the comparator at the created ascending key. -/
theorem sortLe0_created_asc (a b : Card0) :
    sortLe0 ("created_asc") a b = decide (a.createdAt ≤ b.createdAt) := rfl

/-- Reduction of the comparator at the created descending key. -/
theorem sortLe0_created_desc (a b : Card0) :
    sortLe0 ("created_desc") a b = decide (b.createdAt ≤ a.createdAt) := rfl

/-- Reduction of the comparator at the name ascending key. -/
theorem sortLe0_name_asc (a b : Card0) :
    sortLe0 ("name_asc") a b = decide (a.name ≤ b.name) := rfl

/-- Reduction of the comparator at the name descending key. -/
theorem sortLe0_name_desc (a b : Card0) :
    sortLe0 ("name_desc") a b = decide (b.name ≤ a.name) := rfl

/-- Reduction of the comparator at the status key. -/
theorem sortLe0_status (a b : Card0) :
    sortLe0 ("status") a b = decide (a.status ≤ b.status) := rfl

/-- Each recognized sort key yields a transitive and total comparator
relation, the condition the stable sort needs. -/
theorem sortLe0_trans_total (s : String) (hs : s ∈ sortKeys) :
    (∀ a b c : Card0, sortLe0 s a b → sortLe0 s b c → sortLe0 s a c) ∧
    (∀ a b : Card0, sortLe0 s a b || sortLe0 s b a) := by
  simp only [sortKeys, List.mem_cons, List.not_mem_nil, or_false] at hs
  rcases hs with rfl | rfl | rfl | rfl | rfl
  · refine ⟨fun a b c h1 h2 => ?_, fun a b => ?_⟩
    · simp only [sortLe0_created_asc, decide_eq_true_eq] at *
      omega
    · simp only [sortLe0_created_asc, Bool.or_eq_true, decide_eq_true_eq]
      omega
  · refine ⟨fun a b c h1 h2 => ?_, fun a b => ?_⟩
    · simp only [sortLe0_created_desc, decide_eq_true_eq] at *
      omega
    · simp only [sortLe0_created_desc, Bool.or_eq_true, decide_eq_true_eq]
      omega
  · refine ⟨fun a b c h1 h2 => ?_, fun a b => ?_⟩
    · simp only [sortLe0_name_asc, decide_eq_true_eq] at *
      exact le_trans h1 h2
    · simp only [sortLe0_name_asc, Bool.or_eq_true, decide_eq_true_eq]
      exact le_total a.name b.name
  · refine ⟨fun a b c h1 h2 => ?_, fun a b => ?_⟩
    · simp only [sortLe0_name_desc, decide_eq_true_eq] at *
      exact le_trans h2 h1
    · simp only [sortLe0_name_desc, Bool.or_eq_true, decide_eq_true_eq]
      exact (le_total a.name b.name).symm
  · refine ⟨fun a b c h1 h2 => ?_, fun a b => ?_⟩
    · simp only [sortLe0_status, decide_eq_true_eq] at *
      exact le_trans h1 h2
    · simp only [sortLe0_status, Bool.or_eq_true, decide_eq_true_eq]
      exact le_total a.status b.status

/-- C4: the rows the v0 list() renders are exactly the stored records
that satisfy every active filter (term substring of the lowercased
name, exact category, district and status), and whenever the sort
selection is one of the five recognized keys the rows come out ordered
by that comparator; the pipeline computes filter first, sort second,
from the current array. -/
theorem c4_pipeline (cards : List Card0) (searchV catV distV stV sortV : String) :
    (∀ r, r ∈ listRows cards (filtersOf searchV catV distV stV sortV) ↔
      r ∈ cards ∧ matches0 (filtersOf searchV catV distV stV sortV) r = true) ∧
    ((filtersOf searchV catV distV stV sortV).sort ∈ sortKeys →
      (listRows cards (filtersOf searchV catV distV stV sortV)).Pairwise
        (fun a b => sortLe0 (filtersOf searchV catV distV stV sortV).sort a b = true)) := by
  constructor
  · intro r
    by_cases hs : (filtersOf searchV catV distV stV sortV).sort ∈ sortKeys
    · simp [listRows, hs, List.mem_filter]
    · simp [listRows, hs, List.mem_filter]
  · intro hs
    have ht := sortLe0_trans_total _ hs
    simp only [listRows, if_pos hs]
    exact List.sorted_mergeSort (fun a b c => ht.1 a b c) (fun a b => ht.2 a b) _

/-- Witness for C4 at a concrete array and selection: the upper-case
Cyrillic search term matches the mixed-case Cyrillic name through the
case fold, as in the browser. -/
theorem c4_pipeline_witness :
    ({ id := "c1", name := "Кафе", category := "x", district := "y",
       status := "s", createdAt := 2 } : Card0) ∈
      listRows
        [{ id := "c1", name := "Кафе", category := "x", district := "y",
           status := "s", createdAt := 2 },
         { id := "c2", name := "Бар", category := "x", district := "y",
           status := "s", createdAt := 1 }]
        (filtersOf ("КАФЕ") ("") ("") ("") ("name_asc")) := by
  apply (c4_pipeline _ ("КАФЕ") ("") ("") ("") ("name_asc")).1 _ |>.2
  exact ⟨List.mem_cons_self _ _, by decide⟩

/-! C5, the single line tokenizer never yields a cell with a newline. -/

/-- Every line the newline split produces is free of the newline
character (induction along the fuel of the scan). -/
theorem splitLinesF_no_newline :
    ∀ (fuel : Nat) (cs cur : List Char), ('\n') ∉ cur →
      ∀ l ∈ splitLinesF fuel cur cs, ('\n') ∉ l := by
  intro fuel
  induction fuel with
  | zero =>
    intro cs cur hcur l hl
    simp only [splitLinesF, List.mem_singleton] at hl
    subst hl
    exact hcur
  | succ n ih =>
    intro cs cur hcur l hl
    cases cs with
    | nil =>
      simp only [splitLinesF, List.mem_singleton] at hl
      subst hl
      exact hcur
    | cons c rest =>
      simp only [splitLinesF] at hl
      by_cases h1 : c = '\n'
      · rw [if_pos h1] at hl
        rcases List.mem_cons.1 hl with rfl | hl2
        · exact hcur
        · exact ih rest [] (by simp) l hl2
      · rw [if_neg h1] at hl
        by_cases h2 : c = '\r'
        · rw [if_pos h2] at hl
          by_cases h3 : rest.head? = some '\n'
          · rw [if_pos h3] at hl
            rcases List.mem_cons.1 hl with rfl | hl2
            · exact hcur
            · exact ih rest.tail [] (by simp) l hl2
          · rw [if_neg h3] at hl
            refine ih rest (cur ++ [c]) ?_ l hl
            intro hmem
            rcases List.mem_append.1 hmem with h | h
            · exact hcur h
            · exact h1 (List.mem_singleton.1 h).symm
        · rw [if_neg h2] at hl
          refine ih rest (cur ++ [c]) ?_ l hl
          intro hmem
          rcases List.mem_append.1 hmem with h | h
          · exact hcur h
          · exact h1 (List.mem_singleton.1 h).symm

/-- Every cell the tokenizer produces draws its characters from the
line or from the quote character, so a newline-free line tokenizes to
newline-free cells (induction along the fuel of the scan). -/
theorem csvTokensF_no_newline :
    ∀ (fuel : Nat) (cs : List Char) (inQ : Bool) (cur : List Char)
      (out : List (List Char)), ('\n') ∉ cs → ('\n') ∉ cur →
      (∀ t ∈ out, ('\n') ∉ t) → ∀ t ∈ csvTokensF fuel cs inQ cur out, ('\n') ∉ t := by
  intro fuel
  induction fuel with
  | zero =>
    intro cs inQ cur out hcs hcur hout t ht
    simp only [csvTokensF] at ht
    rcases List.mem_append.1 ht with h | h
    · exact hout t h
    · rw [List.mem_singleton.1 h]
      exact hcur
  | succ n ih =>
    intro cs inQ cur out hcs hcur hout t ht
    cases cs with
    | nil =>
      simp only [csvTokensF] at ht
      rcases List.mem_append.1 ht with h | h
      · exact hout t h
      · rw [List.mem_singleton.1 h]
        exact hcur
    | cons c rest =>
      have hc : c ≠ '\n' := fun hc => hcs (hc ▸ List.mem_cons_self c rest)
      have hrest : ('\n') ∉ rest := fun hr => hcs (List.mem_cons_of_mem c hr)
      cases inQ with
      | true =>
        simp only [csvTokensF] at ht
        by_cases h1 : c = '"'
        · rw [if_pos h1] at ht
          by_cases h2 : rest.head? = some '"'
          · rw [if_pos h2] at ht
            refine ih rest.tail true (cur ++ ['"']) out ?_ ?_ hout t ht
            · intro hmem
              exact hrest (List.mem_of_mem_tail hmem)
            · simp [hcur]
          · rw [if_neg h2] at ht
            exact ih rest false cur out hrest hcur hout t ht
        · rw [if_neg h1] at ht
          refine ih rest true (cur ++ [c]) out hrest ?_ hout t ht
          intro hmem
          rcases List.mem_append.1 hmem with h | h
          · exact hcur h
          · exact hc (List.mem_singleton.1 h).symm
      | false =>
        simp only [csvTokensF] at ht
        by_cases h1 : c = ','
        · rw [if_pos h1] at ht
          refine ih rest false [] (out ++ [cur]) hrest (by simp) ?_ t ht
          intro u hu
          rcases List.mem_append.1 hu with h | h
          · exact hout u h
          · rw [List.mem_singleton.1 h]
            exact hcur
        · rw [if_neg h1] at ht
          by_cases h2 : c = '"'
          · rw [if_pos h2] at ht
            exact ih rest true cur out hrest hcur hout t ht
          · rw [if_neg h2] at ht
            refine ih rest false (cur ++ [c]) out hrest ?_ hout t ht
            intro hmem
            rcases List.mem_append.1 hmem with h | h
            · exact hcur h
            · exact hc (List.mem_singleton.1 h).symm

/-- C5: the import tokenizer splits on newlines first and tokenizes one
line at a time, so no produced cell ever contains a newline; and a
quoted field spanning two input lines comes out as two separate
one-cell rows, as the concrete conjunct shows. -/
theorem c5_single_line_tokenizer (text : String) :
    (∀ row ∈ parseCsvRows text.data, ∀ cell ∈ row, ('\n') ∉ cell) ∧
    parseCsvRows (String.data "\"a\nb\"") = [[['a']], [['b']]] := by
  constructor
  · intro row hrow cell hcell
    simp only [parseCsvRows, List.mem_map] at hrow
    obtain ⟨line, hline, rfl⟩ := hrow
    have hline2 := (List.mem_filter.1 hline).1
    have hnl : ('\n') ∉ line :=
      splitLinesF_no_newline text.data.length text.data [] (by simp) line hline2
    exact csvTokensF_no_newline line.length line false [] [] hnl
      (by simp) (by simp) cell hcell
  · decide

/-- Witness for C5 on a concrete text with quotes and commas. -/
theorem c5_single_line_tokenizer_witness :
    ∀ row ∈ parseCsvRows (String.data "a,\"b\"\nc"), ∀ cell ∈ row, ('\n') ∉ cell :=
  (c5_single_line_tokenizer ("a,\"b\"\nc")).1

/-! C10, the two upserts and createdAt preservation. -/

/-- C10 fails as stated in its createdAt conjunct: editing a record
whose stored createdAt is the empty string does not preserve it; the
falsy check cards.find(...)?.createdAt || now replaces it with the
current timestamp.  Concretely, editing the record with id a and empty
createdAt at time T yields createdAt T, not the original empty
string. -/
theorem c10_counterexample :
    (fromForm1 ("T") ("u1")
        [{ id := "a", name := "n", category := "", district := "",
           discount := none, status := "s", published := false,
           description := "", createdAt := "", updatedAt := "u" }]
        { fId := "a", fName := "n", fCategory := "", fDistrict := "",
          fDiscount := "", fDesc := "", fPublished := false,
          fStatus := "s" }).toOption.map Card.createdAt = some ("T") ∧
    ("T" : String) ≠ "" := by
  constructor
  · decide
  · decide

/-- C10 amended: both upserts replace the first record carrying the id
in place, leaving every other position untouched; a fresh id goes to
the front with the form save and to the back with the CSV import; and
an edit through the form preserves the original record's createdAt
whenever that createdAt is nonempty (a falsy, empty createdAt is
replaced with the current timestamp). -/
theorem c10_upsert_positions :
    (∀ (cards : List Card) (obj : Card) (i : Nat),
      cards.findIdx? (fun x => x.id == obj.id) = some i →
      saveUpsert cards obj = cards.set i obj ∧
      importUpsert cards obj = cards.set i obj ∧
      (cards.set i obj).length = cards.length ∧
      ∀ j, j ≠ i → (cards.set i obj)[j]? = cards[j]?) ∧
    (∀ (cards : List Card) (obj : Card),
      cards.findIdx? (fun x => x.id == obj.id) = none →
      saveUpsert cards obj = obj :: cards ∧
      importUpsert cards obj = cards ++ [obj]) ∧
    (∀ (now uidv : String) (cards : List Card) (f : Form1) (obj c : Card),
      f.fId ≠ "" → cards.find? (fun x => x.id == f.fId) = some c →
      c.createdAt ≠ "" → fromForm1 now uidv cards f = Except.ok obj →
      obj.createdAt = c.createdAt) := by
  refine ⟨?_, ?_, ?_⟩
  · intro cards obj i hfind
    refine ⟨?_, ?_, List.length_set cards i obj, ?_⟩
    · simp [saveUpsert, hfind]
    · simp [importUpsert, hfind]
    · intro j hj
      exact List.getElem?_set_ne (fun h => hj h.symm)
  · intro cards obj hfind
    exact ⟨by simp [saveUpsert, hfind], by simp [importUpsert, hfind]⟩
  · intro now uidv cards f obj c hfId hfind hc hok
    simp only [fromForm1] at hok
    by_cases h1 : trimStr f.fName = ""
    · rw [if_pos h1] at hok
      cases hok
    · rw [if_neg h1] at hok
      by_cases h2 : discountBad (discountFromForm f.fDiscount) = true
      · rw [if_pos h2] at hok
        cases hok
      · rw [if_neg h2] at hok
        injection hok with hobj
        rw [← hobj]
        simp [hfId, hfind, hc]

/-- Witness for C10 at concrete arrays: a matching id replaces in
place, a fresh id goes front for the form save and back for the
CSV import step. -/
theorem c10_upsert_positions_witness :
    saveUpsert
      [{ id := "a", name := "n", category := "", district := "",
         discount := none, status := "s", published := false,
         description := "", createdAt := "t", updatedAt := "u" }]
      { id := "b", name := "m", category := "", district := "",
        discount := none, status := "s", published := false,
        description := "", createdAt := "t2", updatedAt := "u2" } =
      [{ id := "b", name := "m", category := "", district := "",
         discount := none, status := "s", published := false,
         description := "", createdAt := "t2", updatedAt := "u2" },
       { id := "a", name := "n", category := "", district := "",
         discount := none, status := "s", published := false,
         description := "", createdAt := "t", updatedAt := "u" }] := by
  have h := c10_upsert_positions.2.1
    [{ id := "a", name := "n", category := "", district := "",
       discount := none, status := "s", published := false,
       description := "", createdAt := "t", updatedAt := "u" }]
    { id := "b", name := "m", category := "", district := "",
      discount := none, status := "s", published := false,
      description := "", createdAt := "t2", updatedAt := "u2" }
    (by decide)
  exact h.1

/-! C1, the CSV export-import round trip. -/

/-- C1 fails as stated: the import stamps every imported record's
updatedAt with the import time, so exporting a record and importing it
back does not reproduce the record.  Concretely, a record with
updatedAt u comes back with updatedAt NOW. -/
theorem c1_counterexample :
    importCsvInto (fun _ => "fresh") ("NOW")
      (exportCsv
        [{ id := "a", name := "n", category := "", district := "",
           discount := none, status := "s", published := false,
           description := "", createdAt := "t", updatedAt := "u" }]) [] ≠
      [{ id := "a", name := "n", category := "", district := "",
         discount := none, status := "s", published := false,
         description := "", createdAt := "t", updatedAt := "u" }] := by
  decide

/-! Decimal printing and parsing round trip, used by the C1 import of
the exported discount column. -/

/-- The digit table only yields digit characters. -/
theorem digitChar_isDigit (d : Nat) : isDigitCh (digitChar d) = true := by
  unfold digitChar
  split_ifs <;> decide

/-- The digit table inverts on digits below ten. -/
theorem digitChar_toNat (d : Nat) (hd : d < 10) : (digitChar d).toNat - 48 = d := by
  interval_cases d <;> decide

/-- A digit character is none of the separator, sign, quote, newline,
decimal point or whitespace characters. -/
theorem digit_not_special (c : Char) (h : isDigitCh c = true) :
    c ≠ '-' ∧ c ≠ '+' ∧ c ≠ '"' ∧ c ≠ ',' ∧ c ≠ '\n' ∧ c ≠ '.' ∧
    isSpaceJs c = false := by
  simp only [isDigitCh, Bool.and_eq_true, decide_eq_true_eq] at h
  refine ⟨?_, ?_, ?_, ?_, ?_, ?_, ?_⟩
  · intro heq; rw [heq] at h; revert h; decide
  · intro heq; rw [heq] at h; revert h; decide
  · intro heq; rw [heq] at h; revert h; decide
  · intro heq; rw [heq] at h; revert h; decide
  · intro heq; rw [heq] at h; revert h; decide
  · intro heq; rw [heq] at h; revert h; decide
  · simp only [isSpaceJs, Bool.or_eq_false_iff, decide_eq_false_iff_not]
    refine ⟨⟨⟨⟨⟨?_, ?_⟩, ?_⟩, ?_⟩, ?_⟩, ?_⟩ <;>
      (intro heq; rw [heq] at h; revert h; decide)

/-- The digit expansion is made of digits, is nonempty, and folds back
to the number, with the accumulator scaled by the digit count. -/
theorem natDigitsAux_spec :
    ∀ (fuel n : Nat), n < fuel →
      (∀ c ∈ natDigitsAux fuel n, isDigitCh c = true) ∧
      natDigitsAux fuel n ≠ [] ∧
      ∀ acc : Nat,
        (natDigitsAux fuel n).foldl (fun a c => a * 10 + (c.toNat - 48)) acc =
          acc * 10 ^ (natDigitsAux fuel n).length + n := by
  intro fuel
  induction fuel with
  | zero => intro n h; exact absurd h (Nat.not_lt_zero n)
  | succ f ih =>
    intro n hn
    by_cases h10 : n < 10
    · refine ⟨?_, ?_, ?_⟩
      · intro c hc
        simp only [natDigitsAux, if_pos h10, List.mem_singleton] at hc
        rw [hc]
        exact digitChar_isDigit n
      · simp [natDigitsAux, h10]
      · intro acc
        simp only [natDigitsAux, if_pos h10, List.foldl_cons, List.foldl_nil,
          List.length_singleton, pow_one]
        rw [digitChar_toNat n h10]
    · have hpos : 0 < n := by omega
      have hdiv : n / 10 < f := by
        have := Nat.div_lt_self hpos (by omega : 1 < 10)
        omega
      obtain ⟨hdig, hne, hval⟩ := ih (n / 10) hdiv
      refine ⟨?_, ?_, ?_⟩
      · intro c hc
        simp only [natDigitsAux, if_neg h10] at hc
        rcases List.mem_append.1 hc with h | h
        · exact hdig c h
        · rw [List.mem_singleton.1 h]
          exact digitChar_isDigit _
      · simp [natDigitsAux, h10]
      · intro acc
        simp only [natDigitsAux, if_neg h10]
        rw [List.foldl_append]
        simp only [List.foldl_cons, List.foldl_nil]
        rw [hval acc, List.length_append, List.length_singleton]
        rw [digitChar_toNat (n % 10) (Nat.mod_lt n (by omega))]
        calc (acc * 10 ^ (natDigitsAux f (n / 10)).length + n / 10) * 10 + n % 10
            = acc * (10 ^ (natDigitsAux f (n / 10)).length * 10) +
              (10 * (n / 10) + n % 10) := by ring
          _ = acc * 10 ^ ((natDigitsAux f (n / 10)).length + 1) + n := by
              rw [pow_succ, Nat.div_add_mod]

/-- The canonical digit string is made of digits. -/
theorem natChars_digits (n : Nat) : ∀ c ∈ natChars n, isDigitCh c = true :=
  (natDigitsAux_spec (n + 1) n (Nat.lt_succ_self n)).1

/-- The canonical digit string is nonempty. -/
theorem natChars_ne_nil (n : Nat) : natChars n ≠ [] :=
  (natDigitsAux_spec (n + 1) n (Nat.lt_succ_self n)).2.1

/-- Parsing the canonical digit string gives the number back. -/
theorem natFromDigits_natChars (n : Nat) : natFromDigits (natChars n) = n := by
  have h := (natDigitsAux_spec (n + 1) n (Nat.lt_succ_self n)).2.2 0
  simpa [natFromDigits, natChars] using h

/-- takeWhile keeps a list every element of which satisfies the test. -/
theorem takeWhile_all {p : Char → Bool} :
    ∀ l : List Char, (∀ c ∈ l, p c = true) → l.takeWhile p = l := by
  intro l
  induction l with
  | nil => intro _; rfl
  | cons c cs ih =>
    intro h
    rw [List.takeWhile_cons, if_pos (h c (List.mem_cons_self c cs))]
    rw [ih fun x hx => h x (List.mem_cons_of_mem c hx)]

/-- dropWhile drops a list every element of which satisfies the test. -/
theorem dropWhile_all {p : Char → Bool} :
    ∀ l : List Char, (∀ c ∈ l, p c = true) → l.dropWhile p = [] := by
  intro l
  induction l with
  | nil => intro _; rfl
  | cons c cs ih =>
    intro h
    rw [List.dropWhile_cons, if_pos (h c (List.mem_cons_self c cs))]
    exact ih fun x hx => h x (List.mem_cons_of_mem c hx)

/-- dropWhile keeps a list no element of which satisfies the test. -/
theorem dropWhile_none {p : Char → Bool} :
    ∀ l : List Char, (∀ c ∈ l, p c = false) → l.dropWhile p = l := by
  intro l
  cases l with
  | nil => intro _; rfl
  | cons c cs =>
    intro h
    rw [List.dropWhile_cons, if_neg (by simp [h c (List.mem_cons_self c cs)])]

/-- A string without whitespace trims to itself. -/
theorem trimChars_no_space (l : List Char) (h : ∀ c ∈ l, isSpaceJs c = false) :
    trimChars l = l := by
  unfold trimChars
  rw [dropWhile_none l h]
  rw [dropWhile_none l.reverse fun c hc => h c (List.mem_reverse.1 hc)]
  exact List.reverse_reverse l

/-- Parsing the canonical digit string as a decimal literal gives the
number back as a rational. -/
theorem parseDecQ_natChars (n : Nat) : parseDecQ (natChars n) = some (n : ℚ) := by
  unfold parseDecQ
  rw [takeWhile_all (natChars n) (natChars_digits n)]
  rw [dropWhile_all (natChars n) (natChars_digits n)]
  simp only [List.isEmpty_iff]
  rw [if_neg (natChars_ne_nil n)]
  rw [natFromDigits_natChars n]

/-- The printed form of an integer JavaScript number: a minus sign for
a negative value, then the decimal digits; no fractional part ever
appears. -/
theorem jsNumToChars_int (m : ℤ) :
    jsNumToChars (JsNum.q (m : ℚ)) =
      if m < 0 then '-' :: natChars (-m).toNat else natChars m.toNat := by
  have hfloor : ∀ k : ℤ, ratCharsNN ((k : ℤ) : ℚ) = natChars k.toNat := by
    intro k
    unfold ratCharsNN
    rw [Int.floor_intCast]
    simp
  have hred : jsNumToChars (JsNum.q (m : ℚ)) =
      if (m : ℚ) < 0 then '-' :: ratCharsNN (-(m : ℚ)) else ratCharsNN (m : ℚ) := rfl
  rw [hred]
  by_cases hm : m < 0
  · rw [if_pos (by exact_mod_cast hm : (m : ℚ) < 0), if_pos hm]
    have : -(m : ℚ) = ((-m : ℤ) : ℚ) := by push_cast; ring
    rw [this, hfloor (-m)]
  · rw [if_neg (by exact_mod_cast hm : ¬ (m : ℚ) < 0), if_neg hm]
    exact hfloor m

/-- The printed integer is nonempty and avoids the quote, comma and
newline characters. -/
theorem jsNumToChars_int_props (m : ℤ) :
    (∀ c ∈ jsNumToChars (JsNum.q (m : ℚ)), c ≠ '"' ∧ c ≠ ',' ∧ c ≠ '\n') ∧
    jsNumToChars (JsNum.q (m : ℚ)) ≠ [] := by
  rw [jsNumToChars_int m]
  split_ifs with hm
  · constructor
    · intro c hc
      rcases List.mem_cons.1 hc with rfl | hc2
      · exact ⟨by decide, by decide, by decide⟩
      · have hd := digit_not_special c (natChars_digits _ c hc2)
        exact ⟨hd.2.2.1, hd.2.2.2.1, hd.2.2.2.2.1⟩
    · simp
  · constructor
    · intro c hc
      have hd := digit_not_special c (natChars_digits _ c hc)
      exact ⟨hd.2.2.1, hd.2.2.2.1, hd.2.2.2.2.1⟩
    · exact natChars_ne_nil _

/-- Number() of the printed integer gives the integer back: the
JavaScript number-to-string-to-number round trip on the discount
column. -/
theorem jsNumber_int_roundtrip (m : ℤ) :
    jsNumber (String.mk (jsNumToChars (JsNum.q (m : ℚ)))) = JsNum.q (m : ℚ) := by
  rw [jsNumToChars_int m]
  by_cases hm : m < 0
  · rw [if_pos hm]
    have hns : ∀ c ∈ '-' :: natChars (-m).toNat, isSpaceJs c = false := by
      intro c hc
      rcases List.mem_cons.1 hc with rfl | hc2
      · decide
      · exact (digit_not_special c (natChars_digits _ c hc2)).2.2.2.2.2.2
    show jsNumber ⟨'-' :: natChars (-m).toNat⟩ = JsNum.q (m : ℚ)
    unfold jsNumber
    simp only [trimChars_no_space _ hns]
    rw [if_neg (by simp)]
    rw [if_pos (by simp)]
    simp only [List.tail_cons]
    rw [parseDecQ_natChars ((-m).toNat)]
    have hcast : (((-m).toNat : ℕ) : ℚ) = -(m : ℚ) := by
      have h1 : ((-m).toNat : ℤ) = -m := Int.toNat_of_nonneg (by omega)
      exact_mod_cast congrArg (fun z : ℤ => (z : ℚ)) h1
    rw [hcast]
    simp
  · rw [if_neg hm]
    have hns : ∀ c ∈ natChars m.toNat, isSpaceJs c = false := fun c hc =>
      (digit_not_special c (natChars_digits _ c hc)).2.2.2.2.2.2
    show jsNumber ⟨natChars m.toNat⟩ = JsNum.q (m : ℚ)
    unfold jsNumber
    simp only [trimChars_no_space _ hns]
    rw [if_neg (by simp [natChars_ne_nil m.toNat])]
    have hhead : ∀ x : Char, (natChars m.toNat).head? = some x → isDigitCh x = true := by
      intro x hx
      cases hcs : natChars m.toNat with
      | nil => rw [hcs] at hx; cases hx
      | cons y ys =>
        rw [hcs] at hx
        simp only [List.head?_cons, Option.some.injEq] at hx
        rw [← hx]
        exact natChars_digits m.toNat y (hcs ▸ List.mem_cons_self y ys)
    rw [if_neg ?hminus]
    case hminus =>
      intro hcon
      exact (digit_not_special ('-') (hhead ('-') hcon)).1 rfl
    rw [if_neg ?hplus]
    case hplus =>
      intro hcon
      exact (digit_not_special ('+') (hhead ('+') hcon)).2.1 rfl
    rw [parseDecQ_natChars (m.toNat)]
    have hcast : ((m.toNat : ℕ) : ℚ) = (m : ℚ) := by
      have h1 : (m.toNat : ℤ) = m := Int.toNat_of_nonneg (by omega)
      exact_mod_cast congrArg (fun z : ℤ => (z : ℚ)) h1
    rw [hcast]

/-- Digit folding with a running accumulator: the accumulator scales by
ten to the digit count. -/
theorem foldl_digits_acc :
    ∀ (l : List Char) (acc : Nat),
      l.foldl (fun a c => a * 10 + (c.toNat - 48)) acc =
        acc * 10 ^ l.length + l.foldl (fun a c => a * 10 + (c.toNat - 48)) 0 := by
  intro l
  induction l with
  | nil => intro acc; simp
  | cons c cs ih =>
    intro acc
    simp only [List.foldl_cons, List.length_cons]
    rw [ih (acc * 10 + (c.toNat - 48)), ih (0 * 10 + (c.toNat - 48))]
    rw [pow_succ]
    ring

/-- Value of a digit list with a leading digit. -/
theorem natFromDigits_cons (c : Char) (cs : List Char) :
    natFromDigits (c :: cs) =
      (c.toNat - 48) * 10 ^ cs.length + natFromDigits cs := by
  unfold natFromDigits
  simp only [List.foldl_cons]
  rw [foldl_digits_acc cs (0 * 10 + (c.toNat - 48))]
  ring

/-- The fractional digit scan of a rational in the interval [0, 1) whose
decimal expansion terminates within the fuel: the scan yields digit
characters only, and folding them back and dividing by ten to their
count restores the number (stated multiplicatively). -/
theorem fracDigitsAux_spec :
    ∀ (fuel : Nat) (x : ℚ), 0 ≤ x → x < 1 →
      (∃ z : ℤ, x * 10 ^ fuel = (z : ℚ)) →
      (∀ c ∈ fracDigitsAux fuel x, isDigitCh c = true) ∧
      (natFromDigits (fracDigitsAux fuel x) : ℚ) =
        x * 10 ^ (fracDigitsAux fuel x).length := by
  intro fuel
  induction fuel with
  | zero =>
    intro x h0 h1 hz
    obtain ⟨z, hz⟩ := hz
    rw [pow_zero, mul_one] at hz
    have hzl : (0 : ℤ) ≤ z := by exact_mod_cast hz ▸ h0
    have hzu : z < 1 := by exact_mod_cast hz ▸ h1
    have hx0 : x = 0 := by
      rw [hz]
      exact_mod_cast (by omega : z = 0)
    have hnil : fracDigitsAux 0 x = [] := rfl
    refine ⟨?_, ?_⟩
    · intro c hc
      rw [hnil] at hc
      cases hc
    · rw [hnil, hx0]
      simp [natFromDigits]
  | succ f ih =>
    intro x h0 h1 hz
    by_cases hx0 : x = 0
    · have hnil : fracDigitsAux (f + 1) x = [] := by
        simp [fracDigitsAux, hx0]
      refine ⟨?_, ?_⟩
      · intro c hc
        rw [hnil] at hc
        cases hc
      · rw [hnil, hx0]
        simp [natFromDigits]
    · obtain ⟨z, hz⟩ := hz
      have hstep : fracDigitsAux (f + 1) x =
          digitChar (⌊x * 10⌋).toNat ::
            fracDigitsAux f (x * 10 - ((⌊x * 10⌋ : ℤ) : ℚ)) := by
        simp only [fracDigitsAux]
        rw [if_neg hx0]
      have hd0 : (0 : ℤ) ≤ ⌊x * 10⌋ :=
        Int.floor_nonneg.2 (mul_nonneg h0 (by norm_num))
      have hd9 : ⌊x * 10⌋ < 10 := by
        rw [Int.floor_lt]
        push_cast
        linarith
      have hfl : ((⌊x * 10⌋ : ℤ) : ℚ) ≤ x * 10 := Int.floor_le (x * 10)
      have hfu : x * 10 < ((⌊x * 10⌋ : ℤ) : ℚ) + 1 := Int.lt_floor_add_one (x * 10)
      have h0' : 0 ≤ x * 10 - ((⌊x * 10⌋ : ℤ) : ℚ) := by linarith
      have h1' : x * 10 - ((⌊x * 10⌋ : ℤ) : ℚ) < 1 := by linarith
      have hz' : ∃ z' : ℤ, (x * 10 - ((⌊x * 10⌋ : ℤ) : ℚ)) * 10 ^ f = (z' : ℚ) := by
        refine ⟨z - ⌊x * 10⌋ * 10 ^ f, ?_⟩
        push_cast
        linear_combination hz
      obtain ⟨hdig', hval'⟩ := ih (x * 10 - ((⌊x * 10⌋ : ℤ) : ℚ)) h0' h1' hz'
      refine ⟨?_, ?_⟩
      · intro c hc
        rw [hstep] at hc
        rcases List.mem_cons.1 hc with rfl | hc2
        · exact digitChar_isDigit _
        · exact hdig' c hc2
      · rw [hstep, natFromDigits_cons, List.length_cons]
        rw [digitChar_toNat (⌊x * 10⌋).toNat (by omega)]
        have hcast : ((⌊x * 10⌋.toNat : ℕ) : ℚ) = ((⌊x * 10⌋ : ℤ) : ℚ) := by
          exact_mod_cast congrArg (fun w : ℤ => (w : ℚ)) (Int.toNat_of_nonneg hd0)
        push_cast
        rw [hcast, hval', pow_succ]
        ring

/-- takeWhile and dropWhile across a satisfied prefix followed by a
failing character. -/
theorem takeWhile_append_cons {p : Char → Bool} :
    ∀ (a : List Char) (b0 : Char) (bs : List Char),
      (∀ c ∈ a, p c = true) → p b0 = false →
      (a ++ b0 :: bs).takeWhile p = a ∧ (a ++ b0 :: bs).dropWhile p = b0 :: bs := by
  intro a
  induction a with
  | nil =>
    intro b0 bs _ hb
    refine ⟨?_, ?_⟩
    · rw [List.nil_append, List.takeWhile_cons, if_neg (by rw [hb]; simp)]
    · rw [List.nil_append, List.dropWhile_cons, if_neg (by rw [hb]; simp)]
  | cons c cs ih =>
    intro b0 bs ha hb
    have hc := ha c (List.mem_cons_self c cs)
    obtain ⟨iht, ihd⟩ := ih b0 bs (fun x hx => ha x (List.mem_cons_of_mem c hx)) hb
    refine ⟨?_, ?_⟩
    · rw [List.cons_append, List.takeWhile_cons, if_pos hc, iht]
    · rw [List.cons_append, List.dropWhile_cons, if_pos hc, ihd]

/-- The decimal notation of a nonnegative finite-decimal rational is
made of digits and at most one point, opens with a digit, and parses
back to the value. -/
theorem ratCharsNN_spec (x : ℚ) (h0 : 0 ≤ x)
    (hz : ∃ z : ℤ, x * 10 ^ 1200 = (z : ℚ)) :
    (∀ c ∈ ratCharsNN x, isDigitCh c = true ∨ c = '.') ∧
    (∃ c cs, ratCharsNN x = c :: cs ∧ isDigitCh c = true) ∧
    parseDecQ (ratCharsNN x) = some x := by
  have hfl0 : (0 : ℤ) ≤ ⌊x⌋ := Int.floor_nonneg.2 h0
  have hcastf : (((⌊x⌋).toNat : ℕ) : ℚ) = ((⌊x⌋ : ℤ) : ℚ) := by
    exact_mod_cast congrArg (fun z : ℤ => (z : ℚ)) (Int.toNat_of_nonneg hfl0)
  by_cases hfr : x - ((⌊x⌋ : ℤ) : ℚ) = 0
  · have hre : ratCharsNN x = natChars (⌊x⌋).toNat := by
      unfold ratCharsNN
      rw [if_pos hfr, List.append_nil]
    have hxint : ((((⌊x⌋).toNat : ℕ)) : ℚ) = x := by
      rw [hcastf]
      linarith
    refine ⟨?_, ?_, ?_⟩
    · intro c hc
      rw [hre] at hc
      exact Or.inl (natChars_digits _ c hc)
    · rw [hre]
      cases hcs : natChars (⌊x⌋).toNat with
      | nil => exact absurd hcs (natChars_ne_nil _)
      | cons c cs =>
        refine ⟨c, cs, rfl, ?_⟩
        refine natChars_digits (⌊x⌋).toNat c ?_
        rw [hcs]
        exact List.mem_cons_self c cs
    · rw [hre, parseDecQ_natChars, hxint]
  · have hfr0 : 0 ≤ x - ((⌊x⌋ : ℤ) : ℚ) := sub_nonneg.2 (Int.floor_le x)
    have hfr1 : x - ((⌊x⌋ : ℤ) : ℚ) < 1 := by
      have := Int.lt_floor_add_one x
      linarith
    obtain ⟨z, hzz⟩ := hz
    have hzf : ∃ z' : ℤ, (x - ((⌊x⌋ : ℤ) : ℚ)) * 10 ^ 1200 = (z' : ℚ) := by
      refine ⟨z - ⌊x⌋ * 10 ^ 1200, ?_⟩
      push_cast
      linear_combination hzz
    obtain ⟨hdig, hval⟩ := fracDigitsAux_spec 1200 _ hfr0 hfr1 hzf
    have hre : ratCharsNN x =
        natChars (⌊x⌋).toNat ++ '.' :: fracDigitsAux 1200 (x - ((⌊x⌋ : ℤ) : ℚ)) := by
      unfold ratCharsNN
      rw [if_neg hfr]
    refine ⟨?_, ?_, ?_⟩
    · intro c hc
      rw [hre] at hc
      rcases List.mem_append.1 hc with h | h
      · exact Or.inl (natChars_digits _ c h)
      · rcases List.mem_cons.1 h with rfl | h2
        · exact Or.inr rfl
        · exact Or.inl (hdig c h2)
    · rw [hre]
      cases hcs : natChars (⌊x⌋).toNat with
      | nil => exact absurd hcs (natChars_ne_nil _)
      | cons c cs =>
        refine ⟨c, cs ++ '.' :: fracDigitsAux 1200 (x - ((⌊x⌋ : ℤ) : ℚ)), ?_, ?_⟩
        · rw [List.cons_append]
        · refine natChars_digits (⌊x⌋).toNat c ?_
          rw [hcs]
          exact List.mem_cons_self c cs
    · rw [hre]
      unfold parseDecQ
      obtain ⟨htake, hdrop⟩ :=
        takeWhile_append_cons (natChars (⌊x⌋).toNat) '.'
          (fracDigitsAux 1200 (x - ((⌊x⌋ : ℤ) : ℚ)))
          (natChars_digits _) (by decide)
      rw [htake, hdrop]
      have hipne : (natChars (⌊x⌋).toNat).isEmpty = false := by
        cases hcs : natChars (⌊x⌋).toNat with
        | nil => exact absurd hcs (natChars_ne_nil _)
        | cons a as => rfl
      have hall : (fracDigitsAux 1200 (x - ((⌊x⌋ : ℤ) : ℚ))).all isDigitCh = true := by
        rw [List.all_eq_true]
        exact hdig
      simp only [hipne, hall, Bool.not_false, Bool.true_or, Bool.or_true,
        Bool.and_true, decide_True, Bool.true_and, if_true]
      rw [natFromDigits_natChars, hval, hcastf]
      rw [mul_div_cancel_right₀ _
        (pow_ne_zero _ (by norm_num : (10 : ℚ) ≠ 0))]
      rw [Option.some_inj]
      ring

/-- The printed form of a finite-decimal JavaScript number avoids the
quote, comma and newline characters, is nonempty, and Number() of it
gives the value back: the number-to-string-to-number round trip on the
discount column. -/
theorem jsNumToCharsQ_spec (x : ℚ) (hz : ∃ z : ℤ, x * 10 ^ 1200 = (z : ℚ)) :
    (∀ c ∈ jsNumToChars (JsNum.q x), c ≠ '"' ∧ c ≠ ',' ∧ c ≠ '\n') ∧
    jsNumToChars (JsNum.q x) ≠ [] ∧
    jsNumber (String.mk (jsNumToChars (JsNum.q x))) = JsNum.q x := by
  have hred : jsNumToChars (JsNum.q x) =
      if x < 0 then '-' :: ratCharsNN (-x) else ratCharsNN x := rfl
  by_cases hneg : x < 0
  · obtain ⟨z, hzz⟩ := hz
    have hzneg : ∃ z' : ℤ, (-x) * 10 ^ 1200 = (z' : ℚ) := by
      refine ⟨-z, ?_⟩
      push_cast
      linear_combination -hzz
    obtain ⟨hcls, ⟨c0, cs0, hcons, hd0⟩, hparse⟩ :=
      ratCharsNN_spec (-x) (by linarith) hzneg
    refine ⟨?_, ?_, ?_⟩
    · intro c hc
      rw [hred, if_pos hneg] at hc
      rcases List.mem_cons.1 hc with rfl | hc2
      · exact ⟨by decide, by decide, by decide⟩
      · rcases hcls c hc2 with hdg | rfl
        · have h := digit_not_special c hdg
          exact ⟨h.2.2.1, h.2.2.2.1, h.2.2.2.2.1⟩
        · exact ⟨by decide, by decide, by decide⟩
    · rw [hred, if_pos hneg]
      simp
    · rw [hred, if_pos hneg]
      have hns : ∀ c ∈ '-' :: ratCharsNN (-x), isSpaceJs c = false := by
        intro c hc
        rcases List.mem_cons.1 hc with rfl | hc2
        · decide
        · rcases hcls c hc2 with hdg | rfl
          · exact (digit_not_special c hdg).2.2.2.2.2.2
          · decide
      show jsNumber ⟨'-' :: ratCharsNN (-x)⟩ = JsNum.q x
      unfold jsNumber
      simp only [trimChars_no_space _ hns]
      rw [if_neg (by simp)]
      rw [if_pos (by simp)]
      simp only [List.tail_cons]
      rw [hparse]
      simp
  · have h0 : 0 ≤ x := le_of_not_lt hneg
    obtain ⟨hcls, ⟨c0, cs0, hcons, hd0⟩, hparse⟩ := ratCharsNN_spec x h0 hz
    have hns : ∀ c ∈ ratCharsNN x, isSpaceJs c = false := by
      intro c hc
      rcases hcls c hc with hdg | rfl
      · exact (digit_not_special c hdg).2.2.2.2.2.2
      · decide
    refine ⟨?_, ?_, ?_⟩
    · intro c hc
      rw [hred, if_neg hneg] at hc
      rcases hcls c hc with hdg | rfl
      · have h := digit_not_special c hdg
        exact ⟨h.2.2.1, h.2.2.2.1, h.2.2.2.2.1⟩
      · exact ⟨by decide, by decide, by decide⟩
    · rw [hred, if_neg hneg, hcons]
      simp
    · rw [hred, if_neg hneg]
      show jsNumber ⟨ratCharsNN x⟩ = JsNum.q x
      unfold jsNumber
      simp only [trimChars_no_space _ hns]
      rw [if_neg (by rw [hcons]; simp)]
      rw [if_neg ?hm]
      case hm =>
        rw [hcons]
        simp only [List.head?_cons, Option.some.injEq]
        intro hcon
        exact (digit_not_special c0 hd0).1 hcon
      rw [if_neg ?hp]
      case hp =>
        rw [hcons]
        simp only [List.head?_cons, Option.some.injEq]
        intro hcon
        exact (digit_not_special c0 hd0).2.1 hcon
      rw [hparse]

/-! Inversion of the CSV tokenizer on exported rows. -/

/-- The tokenizer on an empty line closes the current cell, at any
fuel. -/
theorem csvTokensF_nil (fuel : Nat) (inQ : Bool) (cur : List Char)
    (out : List (List Char)) : csvTokensF fuel [] inQ cur out = out ++ [cur] := by
  cases fuel <;> rfl

/-- The tokenizer result does not depend on the fuel once the fuel
covers the input length. -/
theorem csvTokensF_fuel_irrel :
    ∀ (f1 f2 : Nat) (cs : List Char) (inQ : Bool) (cur : List Char)
      (out : List (List Char)), cs.length ≤ f1 → cs.length ≤ f2 →
      csvTokensF f1 cs inQ cur out = csvTokensF f2 cs inQ cur out := by
  intro f1
  induction f1 with
  | zero =>
    intro f2 cs inQ cur out h1 h2
    have hnil : cs = [] := List.eq_nil_of_length_eq_zero (Nat.le_zero.1 h1)
    subst hnil
    rw [csvTokensF_nil, csvTokensF_nil]
  | succ f ih =>
    intro f2 cs inQ cur out h1 h2
    cases cs with
    | nil => rw [csvTokensF_nil, csvTokensF_nil]
    | cons c rest =>
      cases f2 with
      | zero => simp at h2
      | succ f2 =>
        have hr1 : rest.length ≤ f := by simp only [List.length_cons] at h1; omega
        have hr2 : rest.length ≤ f2 := by simp only [List.length_cons] at h2; omega
        have ht1 : rest.tail.length ≤ f := by
          have := List.length_tail rest
          omega
        have ht2 : rest.tail.length ≤ f2 := by
          have := List.length_tail rest
          omega
        cases inQ with
        | true =>
          simp only [csvTokensF]
          split_ifs
          · exact ih _ _ _ _ _ ht1 ht2
          · exact ih _ _ _ _ _ hr1 hr2
          · exact ih _ _ _ _ _ hr1 hr2
        | false =>
          simp only [csvTokensF]
          split_ifs
          · exact ih _ _ _ _ _ hr1 hr2
          · exact ih _ _ _ _ _ hr1 hr2
          · exact ih _ _ _ _ _ hr1 hr2

/-- Scanning the escaped body of a quoted cell accumulates exactly the
original text and stops at the closing quote (which must not be
followed by another quote, as after it comes a comma or the line
end). -/
theorem csvTokensF_escape :
    ∀ (s : List Char) (fuel : Nat) (rest cur : List Char) (out : List (List Char)),
      (csvEscape s ++ '"' :: rest).length ≤ fuel → rest.head? ≠ some '"' →
      csvTokensF fuel (csvEscape s ++ '"' :: rest) true cur out =
        csvTokensF rest.length rest false (cur ++ s) out := by
  intro s
  induction s with
  | nil =>
    intro fuel rest cur out hlen hhead
    simp only [csvEscape, List.flatMap_nil, List.nil_append] at hlen ⊢
    cases fuel with
    | zero => simp at hlen
    | succ f =>
      simp only [csvTokensF, if_pos rfl]
      rw [if_neg hhead]
      rw [List.append_nil]
      exact csvTokensF_fuel_irrel f rest.length rest false cur out
        (by simp only [List.length_cons] at hlen; omega) le_rfl
  | cons a s ih =>
    intro fuel rest cur out hlen hhead
    by_cases ha : a = '"'
    · subst ha
      have hesc : csvEscape ('"' :: s) = '"' :: '"' :: csvEscape s := by
        simp [csvEscape]
      rw [hesc] at hlen ⊢
      cases fuel with
      | zero => simp at hlen
      | succ f =>
        simp only [List.cons_append] at hlen ⊢
        simp only [csvTokensF, if_pos rfl]
        rw [if_pos (by simp)]
        simp only [List.tail_cons]
        rw [ih f rest (cur ++ ['"']) out
          (by simp only [List.length_cons] at hlen ⊢; omega) hhead]
        rw [List.append_assoc]
        rfl
    · have hesc : csvEscape (a :: s) = a :: csvEscape s := by
        simp [csvEscape, ha]
      rw [hesc] at hlen ⊢
      cases fuel with
      | zero => simp at hlen
      | succ f =>
        simp only [List.cons_append] at hlen ⊢
        simp only [csvTokensF]
        rw [if_neg ha]
        rw [ih f rest (cur ++ [a]) out
          (by simp only [List.length_cons] at hlen ⊢; omega) hhead]
        rw [List.append_assoc]
        rfl

/-- Scanning an unquoted cell (no quote, no comma in it) accumulates
it unchanged. -/
theorem csvTokensF_raw :
    ∀ (s : List Char) (fuel : Nat) (rest cur : List Char) (out : List (List Char)),
      (s ++ rest).length ≤ fuel → (∀ c ∈ s, c ≠ '"' ∧ c ≠ ',') →
      csvTokensF fuel (s ++ rest) false cur out =
        csvTokensF rest.length rest false (cur ++ s) out := by
  intro s
  induction s with
  | nil =>
    intro fuel rest cur out hlen _
    simp only [List.nil_append] at hlen ⊢
    rw [List.append_nil]
    exact csvTokensF_fuel_irrel fuel rest.length rest false cur out hlen le_rfl
  | cons a s ih =>
    intro fuel rest cur out hlen hs
    have ha := hs a (List.mem_cons_self a s)
    cases fuel with
    | zero => simp at hlen
    | succ f =>
      simp only [List.cons_append] at hlen ⊢
      simp only [csvTokensF]
      rw [if_neg ha.2, if_neg ha.1]
      rw [ih f rest (cur ++ [a]) out
        (by simp only [List.length_cons] at hlen ⊢; omega)
        (fun c hc => hs c (List.mem_cons_of_mem a hc))]
      rw [List.append_assoc]
      rfl

/-- A comma outside quotes closes the current cell. -/
theorem csvTokensF_comma (fuel : Nat) (rest cur : List Char)
    (out : List (List Char)) (hlen : rest.length + 1 ≤ fuel) :
    csvTokensF fuel (',' :: rest) false cur out =
      csvTokensF rest.length rest false [] (out ++ [cur]) := by
  cases fuel with
  | zero => omega
  | succ f =>
    simp only [csvTokensF, if_pos rfl]
    exact csvTokensF_fuel_irrel f rest.length rest false [] (out ++ [cur])
      (by omega) le_rfl

/-- A whole quoted cell accumulates the unescaped field text. -/
theorem csvTokensF_qcell (s : String) (fuel : Nat) (rest cur : List Char)
    (out : List (List Char)) (hlen : (quoteCell s ++ rest).length ≤ fuel)
    (hhead : rest.head? ≠ some '"') :
    csvTokensF fuel (quoteCell s ++ rest) false cur out =
      csvTokensF rest.length rest false (cur ++ s.data) out := by
  have hq : quoteCell s ++ rest = '"' :: (csvEscape s.data ++ '"' :: rest) := by
    simp [quoteCell]
  rw [hq] at hlen ⊢
  cases fuel with
  | zero => simp at hlen
  | succ f =>
    simp only [csvTokensF]
    rw [if_neg (by decide : ¬('"' : Char) = ',')]
    rw [if_pos trivial]
    exact csvTokensF_escape s.data f rest cur out
      (by simp only [List.length_cons] at hlen; omega) hhead

/-- A quoted cell followed by a comma: the field is pushed as one
finished cell. -/
theorem csvTokensF_qcomma (s : String) (rest cur : List Char)
    (out : List (List Char)) :
    csvTokensF (quoteCell s ++ ',' :: rest).length (quoteCell s ++ ',' :: rest)
        false cur out =
      csvTokensF rest.length rest false [] (out ++ [cur ++ s.data]) := by
  rw [csvTokensF_qcell s _ (',' :: rest) cur out le_rfl (by simp)]
  exact csvTokensF_comma _ _ _ _ (by simp)

/-- A quoted cell at the line end: the field is the last cell. -/
theorem csvTokensF_qend (s : String) (cur : List Char) (out : List (List Char)) :
    csvTokensF (quoteCell s).length (quoteCell s) false cur out =
      out ++ [cur ++ s.data] := by
  have h0 : (quoteCell s : List Char) = quoteCell s ++ ([] : List Char) := by simp
  calc csvTokensF (quoteCell s).length (quoteCell s) false cur out
      = csvTokensF (quoteCell s ++ ([] : List Char)).length
          (quoteCell s ++ ([] : List Char)) false cur out := by rw [← h0]
    _ = csvTokensF ([] : List Char).length [] false (cur ++ s.data) out :=
        csvTokensF_qcell s _ [] cur out le_rfl (by simp)
    _ = out ++ [cur ++ s.data] := csvTokensF_nil _ _ _ _

/-- An unquoted cell followed by a comma. -/
theorem csvTokensF_rawcomma (s : List Char) (rest cur : List Char)
    (out : List (List Char)) (hs : ∀ c ∈ s, c ≠ '"' ∧ c ≠ ',') :
    csvTokensF (s ++ ',' :: rest).length (s ++ ',' :: rest) false cur out =
      csvTokensF rest.length rest false [] (out ++ [cur ++ s]) := by
  rw [csvTokensF_raw s _ (',' :: rest) cur out le_rfl hs]
  exact csvTokensF_comma _ _ _ _ (by simp)

/-- The discount cell of an absent or finite-decimal discount contains
no quote and no comma. -/
theorem discountCell_props (d : Option JsNum)
    (hd : d = none ∨
      ∃ x : ℚ, d = some (JsNum.q x) ∧ ∃ z : ℤ, x * 10 ^ 1200 = (z : ℚ)) :
    ∀ c ∈ discountCell d, c ≠ '"' ∧ c ≠ ',' := by
  rcases hd with rfl | ⟨x, rfl, hz⟩
  · intro c hc
    cases hc
  · intro c hc
    have h := (jsNumToCharsQ_spec x hz).1 c hc
    exact ⟨h.1, h.2.1⟩

/-- The published cell contains no quote and no comma. -/
theorem boolCell_props (b : Bool) : ∀ c ∈ boolCell b, c ≠ '"' ∧ c ≠ ',' := by
  cases b <;> decide

/-- Tokenizing one exported card row yields exactly the ten cells, with
each quoted field unescaped back to its original text. -/
theorem csvTokensLine_cardRow (c : Card)
    (hd : c.discount = none ∨
      ∃ x : ℚ, c.discount = some (JsNum.q x) ∧ ∃ z : ℤ, x * 10 ^ 1200 = (z : ℚ)) :
    csvTokensLine (cardRow c) =
      [c.id.data, c.name.data, c.category.data, c.district.data,
       discountCell c.discount, c.status.data, boolCell c.published,
       c.description.data, c.createdAt.data, c.updatedAt.data] := by
  have hrow : cardRow c =
      quoteCell c.id ++ ',' :: (quoteCell c.name ++ ',' :: (quoteCell c.category ++
        ',' :: (quoteCell c.district ++ ',' :: (discountCell c.discount ++
        ',' :: (quoteCell c.status ++ ',' :: (boolCell c.published ++
        ',' :: (quoteCell c.description ++ ',' :: (quoteCell c.createdAt ++
        ',' :: quoteCell c.updatedAt)))))))) := by
    simp [cardRow, List.append_assoc]
  unfold csvTokensLine
  rw [hrow]
  rw [csvTokensF_qcomma, csvTokensF_qcomma, csvTokensF_qcomma, csvTokensF_qcomma]
  rw [csvTokensF_rawcomma _ _ _ _ (discountCell_props c.discount hd)]
  rw [csvTokensF_qcomma]
  rw [csvTokensF_rawcomma _ _ _ _ (boolCell_props c.published)]
  rw [csvTokensF_qcomma, csvTokensF_qcomma]
  rw [csvTokensF_qend]
  simp

/-! Inversion of the newline split on the joined export lines. -/

/-- The split of an empty text is one empty line, at any fuel. -/
theorem splitLinesF_nil (fuel : Nat) (cur : List Char) :
    splitLinesF fuel cur [] = [cur] := by
  cases fuel <;> rfl

/-- The split result does not depend on the fuel once the fuel covers
the text length. -/
theorem splitLinesF_fuel_irrel :
    ∀ (f1 f2 : Nat) (cs cur : List Char), cs.length ≤ f1 → cs.length ≤ f2 →
      splitLinesF f1 cur cs = splitLinesF f2 cur cs := by
  intro f1
  induction f1 with
  | zero =>
    intro f2 cs cur h1 h2
    have hnil : cs = [] := List.eq_nil_of_length_eq_zero (Nat.le_zero.1 h1)
    subst hnil
    rw [splitLinesF_nil, splitLinesF_nil]
  | succ f ih =>
    intro f2 cs cur h1 h2
    cases cs with
    | nil => rw [splitLinesF_nil, splitLinesF_nil]
    | cons c rest =>
      cases f2 with
      | zero => simp at h2
      | succ f2 =>
        have hr1 : rest.length ≤ f := by simp only [List.length_cons] at h1; omega
        have hr2 : rest.length ≤ f2 := by simp only [List.length_cons] at h2; omega
        have ht1 : rest.tail.length ≤ f := by
          have := List.length_tail rest
          omega
        have ht2 : rest.tail.length ≤ f2 := by
          have := List.length_tail rest
          omega
        simp only [splitLinesF]
        split_ifs
        · rw [ih _ _ _ hr1 hr2]
        · rw [ih _ _ _ ht1 ht2]
        · exact ih _ _ _ hr1 hr2
        · exact ih _ _ _ hr1 hr2

/-- A newline-free text splits into the single line made of it. -/
theorem splitLinesF_single :
    ∀ (l : List Char) (fuel : Nat) (cur : List Char), l.length ≤ fuel →
      ('\n') ∉ l → splitLinesF fuel cur l = [cur ++ l] := by
  intro l
  induction l with
  | nil =>
    intro fuel cur _ _
    rw [splitLinesF_nil, List.append_nil]
  | cons c l ih =>
    intro fuel cur hlen hnl
    have hc : c ≠ '\n' := fun h => hnl (h ▸ List.mem_cons_self c l)
    have hl : ('\n') ∉ l := fun h => hnl (List.mem_cons_of_mem c h)
    cases fuel with
    | zero => simp at hlen
    | succ f =>
      have hlen2 : l.length ≤ f := by simp only [List.length_cons] at hlen; omega
      simp only [splitLinesF]
      rw [if_neg hc]
      by_cases hr : c = '\r'
      · rw [if_pos hr]
        rw [if_neg ?hno]
        case hno =>
          intro hcon
          cases hl2 : l with
          | nil => rw [hl2] at hcon; cases hcon
          | cons b l2 =>
            rw [hl2] at hcon
            simp only [List.head?_cons, Option.some.injEq] at hcon
            exact hl (hl2 ▸ (hcon ▸ List.mem_cons_self b l2))
        rw [ih f (cur ++ [c]) hlen2 hl]
        rw [List.append_assoc]
        rfl
      · rw [if_neg hr]
        rw [ih f (cur ++ [c]) hlen2 hl]
        rw [List.append_assoc]
        rfl

/-- A newline-free line followed by CRLF and more text splits into that
line and the split of the remainder. -/
theorem splitLinesF_crlf :
    ∀ (l : List Char) (fuel : Nat) (cur cs : List Char),
      (l ++ '\r' :: '\n' :: cs).length ≤ fuel → ('\n') ∉ l →
      splitLinesF fuel cur (l ++ '\r' :: '\n' :: cs) =
        (cur ++ l) :: splitLinesF cs.length [] cs := by
  intro l
  induction l with
  | nil =>
    intro fuel cur cs hlen _
    simp only [List.nil_append] at hlen ⊢
    cases fuel with
    | zero => simp at hlen
    | succ f =>
      simp only [splitLinesF]
      rw [if_neg (by decide : ¬('\r' : Char) = '\n')]
      rw [if_pos trivial]
      rw [if_pos (by simp)]
      simp only [List.tail_cons, List.append_nil]
      rw [splitLinesF_fuel_irrel f cs.length cs []
        (by simp only [List.length_cons] at hlen; omega) le_rfl]
  | cons c l ih =>
    intro fuel cur cs hlen hnl
    have hc : c ≠ '\n' := fun h => hnl (h ▸ List.mem_cons_self c l)
    have hl : ('\n') ∉ l := fun h => hnl (List.mem_cons_of_mem c h)
    cases fuel with
    | zero => simp at hlen
    | succ f =>
      have hlen2 : (l ++ '\r' :: '\n' :: cs).length ≤ f := by
        simp only [List.cons_append, List.length_cons,
          List.length_append] at hlen ⊢
        omega
      simp only [List.cons_append, splitLinesF, List.append_eq]
      rw [if_neg hc]
      by_cases hr : c = '\r'
      · rw [if_pos hr]
        rw [if_neg ?hno2]
        case hno2 =>
          intro hcon
          cases hl2 : l with
          | nil =>
            subst hl2
            simp at hcon
          | cons b l2 =>
            subst hl2
            simp at hcon
            exact hl (hcon ▸ List.mem_cons_self b l2)
        rw [ih f (cur ++ [c]) cs hlen2 hl]
        rw [List.append_assoc]
        rfl
      · rw [if_neg hr]
        rw [ih f (cur ++ [c]) cs hlen2 hl]
        rw [List.append_assoc]
        rfl

/-- Splitting the CRLF join of nonempty newline-free lines restores the
lines. -/
theorem splitLines_joinCRLF :
    ∀ (lines : List (List Char)), lines ≠ [] → (∀ l ∈ lines, ('\n') ∉ l) →
      splitLines (joinCRLF lines) = lines := by
  intro lines
  induction lines with
  | nil => intro h _; exact absurd rfl h
  | cons l ls ih =>
    intro _ hnl
    cases ls with
    | nil =>
      show splitLines (joinCRLF [l]) = [l]
      have hj : joinCRLF [l] = l := rfl
      rw [hj]
      unfold splitLines
      rw [splitLinesF_single l l.length [] le_rfl (hnl l (List.mem_cons_self l []))]
      rw [List.nil_append]
    | cons l2 ls2 =>
      have hj : joinCRLF (l :: l2 :: ls2) = l ++ '\r' :: '\n' :: joinCRLF (l2 :: ls2) := rfl
      unfold splitLines
      rw [hj]
      rw [splitLinesF_crlf l _ [] _ le_rfl (hnl l (List.mem_cons_self l (l2 :: ls2)))]
      rw [List.nil_append]
      congr 1
      exact ih (by simp) fun x hx => hnl x (List.mem_cons_of_mem l hx)

/-- Filtering away empty lines keeps a list of nonempty lines whole. -/
theorem filter_nonempty_lines :
    ∀ (lines : List (List Char)), (∀ l ∈ lines, l ≠ []) →
      lines.filter (fun l => !l.isEmpty) = lines := by
  intro lines h
  induction lines with
  | nil => rfl
  | cons l ls ih =>
    rw [List.filter_cons]
    rw [if_pos (by simp [h l (List.mem_cons_self l ls)])]
    rw [ih fun x hx => h x (List.mem_cons_of_mem l hx)]

/-! Evaluating one imported row back into a card. -/

/-- A nonempty string has a nonempty character list. -/
theorem data_not_empty (s : String) (h : s ≠ "") : s.data.isEmpty = false := by
  cases s with
  | mk l =>
    cases l with
    | nil => exact absurd rfl h
    | cons c cs => rfl

/-- Rebuilding a string from its characters is the identity. -/
theorem mk_data (s : String) : String.mk s.data = s := rfl

/-- Every character of an escaped field text is a field character or a
quote. -/
theorem mem_csvEscape (a : Char) (s : List Char) (h : a ∈ csvEscape s) :
    a ∈ s ∨ a = '"' := by
  simp only [csvEscape, List.mem_flatMap] at h
  obtain ⟨c, hc, ha⟩ := h
  by_cases hq : c = '"'
  · rw [if_pos hq] at ha
    right
    rcases List.mem_cons.1 ha with rfl | ha2
    · rfl
    · exact List.mem_singleton.1 ha2
  · rw [if_neg hq] at ha
    left
    rw [List.mem_singleton.1 ha]
    exact hc

/-- A quoted cell of a newline-free field contains no newline. -/
theorem quoteCell_no_newline (s : String) (h : ('\n') ∉ s.data) :
    ('\n') ∉ quoteCell s := by
  intro hmem
  simp only [quoteCell, List.mem_cons, List.mem_append, List.mem_singleton,
    List.not_mem_nil, or_false] at hmem
  rcases hmem with h1 | h1 | h1
  · exact absurd h1 (by decide)
  · rcases mem_csvEscape _ _ h1 with h2 | h2
    · exact h h2
    · exact absurd h2 (by decide)
  · exact absurd h1 (by decide)

/-- An exported row of a good card contains no newline, so the join and
split on CRLF leave it intact. -/
theorem cardRow_no_newline (c : Card) (hg : goodCard c) : ('\n') ∉ cardRow c := by
  obtain ⟨_, _, _, _, h5, h6, h7, h8, h9, h10, h11, h12, hd⟩ := hg
  intro hmem
  simp only [cardRow, List.mem_append, List.mem_cons, or_assoc] at hmem
  rcases hmem with h | h | h | h | h | h | h | h | h | h | h | h | h | h | h | h | h | h | h
  · exact quoteCell_no_newline c.id h5 h
  · exact absurd h (by decide)
  · exact quoteCell_no_newline c.name h6 h
  · exact absurd h (by decide)
  · exact quoteCell_no_newline c.category h7 h
  · exact absurd h (by decide)
  · exact quoteCell_no_newline c.district h8 h
  · exact absurd h (by decide)
  · rcases hd with hd0 | ⟨x, hx, hz⟩
    · rw [hd0] at h
      cases h
    · rw [hx] at h
      exact ((jsNumToCharsQ_spec x hz).1 _ h).2.2 rfl
  · exact absurd h (by decide)
  · exact quoteCell_no_newline c.status h9 h
  · exact absurd h (by decide)
  · revert h
    cases c.published <;> decide
  · exact absurd h (by decide)
  · exact quoteCell_no_newline c.description h10 h
  · exact absurd h (by decide)
  · exact quoteCell_no_newline c.createdAt h11 h
  · exact absurd h (by decide)
  · exact quoteCell_no_newline c.updatedAt h12 h

/-- An exported row is nonempty (it opens with the quote of the id
cell). -/
theorem cardRow_ne_nil (c : Card) : cardRow c ≠ [] := by
  simp [cardRow, quoteCell]

/-- The imported record of a tokenized exported row of a good card is
the card itself with updatedAt restamped to the import time. -/
theorem importCard_cells (uidv now : String) (c : Card) (hg : goodCard c) :
    importCard uidv now
      [['i', 'd'], ['n', 'a', 'm', 'e'],
       ['c', 'a', 't', 'e', 'g', 'o', 'r', 'y'],
       ['d', 'i', 's', 't', 'r', 'i', 'c', 't'],
       ['d', 'i', 's', 'c', 'o', 'u', 'n', 't'], ['s', 't', 'a', 't', 'u', 's'],
       ['p', 'u', 'b', 'l', 'i', 's', 'h', 'e', 'd'],
       ['d', 'e', 's', 'c', 'r', 'i', 'p', 't', 'i', 'o', 'n'],
       ['c', 'r', 'e', 'a', 't', 'e', 'd', 'A', 't'],
       ['u', 'p', 'd', 'a', 't', 'e', 'd', 'A', 't']]
      [c.id.data, c.name.data, c.category.data, c.district.data,
       discountCell c.discount, c.status.data, boolCell c.published,
       c.description.data, c.createdAt.data, c.updatedAt.data] =
      { c with updatedAt := now } := by
  obtain ⟨hid, hname, hstatus, hcreated, _, _, _, _, _, _, _, _, hd⟩ := hg
  have hpub : ∀ b : Bool,
      (decide (lowerStr (String.mk (boolCell b)) = "true")) = b := by
    intro b
    cases b <;> decide
  have e0 : nthCell
      [c.id.data, c.name.data, c.category.data, c.district.data,
       discountCell c.discount, c.status.data, boolCell c.published,
       c.description.data, c.createdAt.data, c.updatedAt.data] 0 = c.id.data := rfl
  have e1 : nthCell
      [c.id.data, c.name.data, c.category.data, c.district.data,
       discountCell c.discount, c.status.data, boolCell c.published,
       c.description.data, c.createdAt.data, c.updatedAt.data] 1 = c.name.data := rfl
  have e2 : nthCell
      [c.id.data, c.name.data, c.category.data, c.district.data,
       discountCell c.discount, c.status.data, boolCell c.published,
       c.description.data, c.createdAt.data, c.updatedAt.data] 2 = c.category.data := rfl
  have e3 : nthCell
      [c.id.data, c.name.data, c.category.data, c.district.data,
       discountCell c.discount, c.status.data, boolCell c.published,
       c.description.data, c.createdAt.data, c.updatedAt.data] 3 = c.district.data := rfl
  have e4 : nthCell
      [c.id.data, c.name.data, c.category.data, c.district.data,
       discountCell c.discount, c.status.data, boolCell c.published,
       c.description.data, c.createdAt.data, c.updatedAt.data] 4 =
      discountCell c.discount := rfl
  have e5 : nthCell
      [c.id.data, c.name.data, c.category.data, c.district.data,
       discountCell c.discount, c.status.data, boolCell c.published,
       c.description.data, c.createdAt.data, c.updatedAt.data] 5 = c.status.data := rfl
  have e6 : nthCell
      [c.id.data, c.name.data, c.category.data, c.district.data,
       discountCell c.discount, c.status.data, boolCell c.published,
       c.description.data, c.createdAt.data, c.updatedAt.data] 6 =
      boolCell c.published := rfl
  have e7 : nthCell
      [c.id.data, c.name.data, c.category.data, c.district.data,
       discountCell c.discount, c.status.data, boolCell c.published,
       c.description.data, c.createdAt.data, c.updatedAt.data] 7 =
      c.description.data := rfl
  have e8 : nthCell
      [c.id.data, c.name.data, c.category.data, c.district.data,
       discountCell c.discount, c.status.data, boolCell c.published,
       c.description.data, c.createdAt.data, c.updatedAt.data] 8 =
      c.createdAt.data := rfl
  have e9 : nthCell
      [c.id.data, c.name.data, c.category.data, c.district.data,
       discountCell c.discount, c.status.data, boolCell c.published,
       c.description.data, c.createdAt.data, c.updatedAt.data] 9 =
      c.updatedAt.data := rfl
  have i0 : indexOfAux
      [['i', 'd'], ['n', 'a', 'm', 'e'],
       ['c', 'a', 't', 'e', 'g', 'o', 'r', 'y'],
       ['d', 'i', 's', 't', 'r', 'i', 'c', 't'],
       ['d', 'i', 's', 'c', 'o', 'u', 'n', 't'], ['s', 't', 'a', 't', 'u', 's'],
       ['p', 'u', 'b', 'l', 'i', 's', 'h', 'e', 'd'],
       ['d', 'e', 's', 'c', 'r', 'i', 'p', 't', 'i', 'o', 'n'],
       ['c', 'r', 'e', 'a', 't', 'e', 'd', 'A', 't'],
       ['u', 'p', 'd', 'a', 't', 'e', 'd', 'A', 't']] ['i', 'd'] 0 =
      some 0 := rfl
  have i1 : indexOfAux
      [['i', 'd'], ['n', 'a', 'm', 'e'],
       ['c', 'a', 't', 'e', 'g', 'o', 'r', 'y'],
       ['d', 'i', 's', 't', 'r', 'i', 'c', 't'],
       ['d', 'i', 's', 'c', 'o', 'u', 'n', 't'], ['s', 't', 'a', 't', 'u', 's'],
       ['p', 'u', 'b', 'l', 'i', 's', 'h', 'e', 'd'],
       ['d', 'e', 's', 'c', 'r', 'i', 'p', 't', 'i', 'o', 'n'],
       ['c', 'r', 'e', 'a', 't', 'e', 'd', 'A', 't'],
       ['u', 'p', 'd', 'a', 't', 'e', 'd', 'A', 't']] ['n', 'a', 'm', 'e'] 0 =
      some 1 := rfl
  have i2 : indexOfAux
      [['i', 'd'], ['n', 'a', 'm', 'e'],
       ['c', 'a', 't', 'e', 'g', 'o', 'r', 'y'],
       ['d', 'i', 's', 't', 'r', 'i', 'c', 't'],
       ['d', 'i', 's', 'c', 'o', 'u', 'n', 't'], ['s', 't', 'a', 't', 'u', 's'],
       ['p', 'u', 'b', 'l', 'i', 's', 'h', 'e', 'd'],
       ['d', 'e', 's', 'c', 'r', 'i', 'p', 't', 'i', 'o', 'n'],
       ['c', 'r', 'e', 'a', 't', 'e', 'd', 'A', 't'],
       ['u', 'p', 'd', 'a', 't', 'e', 'd', 'A', 't']] ['c', 'a', 't', 'e', 'g', 'o', 'r', 'y'] 0 =
      some 2 := rfl
  have i3 : indexOfAux
      [['i', 'd'], ['n', 'a', 'm', 'e'],
       ['c', 'a', 't', 'e', 'g', 'o', 'r', 'y'],
       ['d', 'i', 's', 't', 'r', 'i', 'c', 't'],
       ['d', 'i', 's', 'c', 'o', 'u', 'n', 't'], ['s', 't', 'a', 't', 'u', 's'],
       ['p', 'u', 'b', 'l', 'i', 's', 'h', 'e', 'd'],
       ['d', 'e', 's', 'c', 'r', 'i', 'p', 't', 'i', 'o', 'n'],
       ['c', 'r', 'e', 'a', 't', 'e', 'd', 'A', 't'],
       ['u', 'p', 'd', 'a', 't', 'e', 'd', 'A', 't']] ['d', 'i', 's', 't', 'r', 'i', 'c', 't'] 0 =
      some 3 := rfl
  have i4 : indexOfAux
      [['i', 'd'], ['n', 'a', 'm', 'e'],
       ['c', 'a', 't', 'e', 'g', 'o', 'r', 'y'],
       ['d', 'i', 's', 't', 'r', 'i', 'c', 't'],
       ['d', 'i', 's', 'c', 'o', 'u', 'n', 't'], ['s', 't', 'a', 't', 'u', 's'],
       ['p', 'u', 'b', 'l', 'i', 's', 'h', 'e', 'd'],
       ['d', 'e', 's', 'c', 'r', 'i', 'p', 't', 'i', 'o', 'n'],
       ['c', 'r', 'e', 'a', 't', 'e', 'd', 'A', 't'],
       ['u', 'p', 'd', 'a', 't', 'e', 'd', 'A', 't']] ['d', 'i', 's', 'c', 'o', 'u', 'n', 't'] 0 =
      some 4 := rfl
  have i5 : indexOfAux
      [['i', 'd'], ['n', 'a', 'm', 'e'],
       ['c', 'a', 't', 'e', 'g', 'o', 'r', 'y'],
       ['d', 'i', 's', 't', 'r', 'i', 'c', 't'],
       ['d', 'i', 's', 'c', 'o', 'u', 'n', 't'], ['s', 't', 'a', 't', 'u', 's'],
       ['p', 'u', 'b', 'l', 'i', 's', 'h', 'e', 'd'],
       ['d', 'e', 's', 'c', 'r', 'i', 'p', 't', 'i', 'o', 'n'],
       ['c', 'r', 'e', 'a', 't', 'e', 'd', 'A', 't'],
       ['u', 'p', 'd', 'a', 't', 'e', 'd', 'A', 't']] ['s', 't', 'a', 't', 'u', 's'] 0 =
      some 5 := rfl
  have i6 : indexOfAux
      [['i', 'd'], ['n', 'a', 'm', 'e'],
       ['c', 'a', 't', 'e', 'g', 'o', 'r', 'y'],
       ['d', 'i', 's', 't', 'r', 'i', 'c', 't'],
       ['d', 'i', 's', 'c', 'o', 'u', 'n', 't'], ['s', 't', 'a', 't', 'u', 's'],
       ['p', 'u', 'b', 'l', 'i', 's', 'h', 'e', 'd'],
       ['d', 'e', 's', 'c', 'r', 'i', 'p', 't', 'i', 'o', 'n'],
       ['c', 'r', 'e', 'a', 't', 'e', 'd', 'A', 't'],
       ['u', 'p', 'd', 'a', 't', 'e', 'd', 'A', 't']] ['p', 'u', 'b', 'l', 'i', 's', 'h', 'e', 'd'] 0 =
      some 6 := rfl
  have i7 : indexOfAux
      [['i', 'd'], ['n', 'a', 'm', 'e'],
       ['c', 'a', 't', 'e', 'g', 'o', 'r', 'y'],
       ['d', 'i', 's', 't', 'r', 'i', 'c', 't'],
       ['d', 'i', 's', 'c', 'o', 'u', 'n', 't'], ['s', 't', 'a', 't', 'u', 's'],
       ['p', 'u', 'b', 'l', 'i', 's', 'h', 'e', 'd'],
       ['d', 'e', 's', 'c', 'r', 'i', 'p', 't', 'i', 'o', 'n'],
       ['c', 'r', 'e', 'a', 't', 'e', 'd', 'A', 't'],
       ['u', 'p', 'd', 'a', 't', 'e', 'd', 'A', 't']] ['d', 'e', 's', 'c', 'r', 'i', 'p', 't', 'i', 'o', 'n'] 0 =
      some 7 := rfl
  have i8 : indexOfAux
      [['i', 'd'], ['n', 'a', 'm', 'e'],
       ['c', 'a', 't', 'e', 'g', 'o', 'r', 'y'],
       ['d', 'i', 's', 't', 'r', 'i', 'c', 't'],
       ['d', 'i', 's', 'c', 'o', 'u', 'n', 't'], ['s', 't', 'a', 't', 'u', 's'],
       ['p', 'u', 'b', 'l', 'i', 's', 'h', 'e', 'd'],
       ['d', 'e', 's', 'c', 'r', 'i', 'p', 't', 'i', 'o', 'n'],
       ['c', 'r', 'e', 'a', 't', 'e', 'd', 'A', 't'],
       ['u', 'p', 'd', 'a', 't', 'e', 'd', 'A', 't']] ['c', 'r', 'e', 'a', 't', 'e', 'd', 'A', 't'] 0 =
      some 8 := rfl
  have i9 : indexOfAux
      [['i', 'd'], ['n', 'a', 'm', 'e'],
       ['c', 'a', 't', 'e', 'g', 'o', 'r', 'y'],
       ['d', 'i', 's', 't', 'r', 'i', 'c', 't'],
       ['d', 'i', 's', 'c', 'o', 'u', 'n', 't'], ['s', 't', 'a', 't', 'u', 's'],
       ['p', 'u', 'b', 'l', 'i', 's', 'h', 'e', 'd'],
       ['d', 'e', 's', 'c', 'r', 'i', 'p', 't', 'i', 'o', 'n'],
       ['c', 'r', 'e', 'a', 't', 'e', 'd', 'A', 't'],
       ['u', 'p', 'd', 'a', 't', 'e', 'd', 'A', 't']] ['u', 'p', 'd', 'a', 't', 'e', 'd', 'A', 't'] 0 =
      some 9 := rfl
  simp only [importCard, i0, i1, i2, i3, i4, i5, i6, i7, i8, i9, cellAt,
    e0, e1, e2, e3, e4, e5, e6, e7, e8, e9,
    data_not_empty c.id hid, data_not_empty c.status hstatus,
    data_not_empty c.createdAt hcreated, mk_data, Bool.false_eq_true,
    if_false, hpub]
  rcases hd with hnone | ⟨x, hx, hz⟩
  · rw [hnone]
    simp [discountCell]
  · rw [hx]
    have hne : (jsNumToChars (JsNum.q x)).isEmpty = false := by
      cases hcs : jsNumToChars (JsNum.q x) with
      | nil => exact absurd hcs (jsNumToCharsQ_spec x hz).2.1
      | cons y ys => rfl
    simp only [discountCell, hne, Bool.false_eq_true, if_false]
    rw [(jsNumToCharsQ_spec x hz).2.2]

/-- The import loop over the tokenized rows of good cards with fresh
ids appends each restamped record at the back, in order. -/
theorem importRowsLoop_appends :
    ∀ (cards pre : List Card) (uidF : Nat → String) (now : String) (k : Nat),
      (∀ c ∈ cards, goodCard c) →
      (∀ c ∈ cards, ∀ p ∈ pre, p.id ≠ c.id) →
      (cards.map Card.id).Nodup →
      importRowsLoop uidF now
        [['i', 'd'], ['n', 'a', 'm', 'e'],
         ['c', 'a', 't', 'e', 'g', 'o', 'r', 'y'],
         ['d', 'i', 's', 't', 'r', 'i', 'c', 't'],
         ['d', 'i', 's', 'c', 'o', 'u', 'n', 't'], ['s', 't', 'a', 't', 'u', 's'],
         ['p', 'u', 'b', 'l', 'i', 's', 'h', 'e', 'd'],
         ['d', 'e', 's', 'c', 'r', 'i', 'p', 't', 'i', 'o', 'n'],
         ['c', 'r', 'e', 'a', 't', 'e', 'd', 'A', 't'],
         ['u', 'p', 'd', 'a', 't', 'e', 'd', 'A', 't']] k
        (cards.map (fun c =>
          [c.id.data, c.name.data, c.category.data, c.district.data,
           discountCell c.discount, c.status.data, boolCell c.published,
           c.description.data, c.createdAt.data, c.updatedAt.data])) pre =
      pre ++ cards.map (fun c => { c with updatedAt := now }) := by
  intro cards
  induction cards with
  | nil =>
    intro pre uidF now k _ _ _
    simp [importRowsLoop]
  | cons c cs ih =>
    intro pre uidF now k hg hdisj hnodup
    have hgc := hg c (List.mem_cons_self c cs)
    simp only [List.map_cons, importRowsLoop, List.isEmpty_cons,
      Bool.false_eq_true, if_false]
    rw [importCard_cells (uidF k) now c hgc]
    have hname : ({ c with updatedAt := now } : Card).name.isEmpty = false := by
      rw [show ({ c with updatedAt := now } : Card).name = c.name from rfl]
      rw [Bool.eq_false_iff]
      intro hcon
      exact hgc.2.1 ((String.isEmpty_iff c.name).1 hcon)
    rw [hname]
    simp only [Bool.false_eq_true, if_false]
    have hfind : pre.findIdx?
        (fun x => x.id == ({ c with updatedAt := now } : Card).id) = none := by
      rw [List.findIdx?_eq_none_iff]
      intro p hp
      simp only [Bool.not_eq_true, beq_eq_false_iff_ne, ne_eq]
      exact hdisj c (List.mem_cons_self c cs) p hp
    simp only [importUpsert, hfind]
    rw [ih (pre ++ [({ c with updatedAt := now } : Card)]) uidF now (k + 1)
      (fun x hx => hg x (List.mem_cons_of_mem c hx)) ?disj ?nodup]
    case disj =>
      intro x hx p hp
      rcases List.mem_append.1 hp with hp2 | hp2
      · exact hdisj x (List.mem_cons_of_mem c hx) p hp2
      · rw [List.mem_singleton.1 hp2]
        show c.id ≠ x.id
        simp only [List.map_cons, List.nodup_cons] at hnodup
        intro hcon
        exact hnodup.1 (hcon ▸ List.mem_map_of_mem Card.id hx)
    case nodup =>
      simp only [List.map_cons, List.nodup_cons] at hnodup
      exact hnodup.2
    rw [List.append_assoc]
    rfl

set_option maxHeartbeats 2000000 in
/-- C1 amended: exporting any array of well-formed card records (truthy
id, name, status and createdAt, no newline in any string field, a
finite-decimal or absent discount, pairwise distinct ids) and importing
the CSV text into an empty card list restores every record in order,
except that each updatedAt is restamped with the import time. -/
theorem c1_csv_roundtrip (cards : List Card) (uidF : Nat → String) (now : String)
    (hg : ∀ c ∈ cards, goodCard c) (hids : (cards.map Card.id).Nodup) :
    importCsvInto uidF now (exportCsv cards) [] =
      cards.map (fun c => { c with updatedAt := now }) := by
  have hnl : ∀ l ∈ csvHeaderChars :: cards.map cardRow, ('\n') ∉ l := by
    intro l hl
    rcases List.mem_cons.1 hl with rfl | hl2
    · decide
    · obtain ⟨c, hc, rfl⟩ := List.mem_map.1 hl2
      exact cardRow_no_newline c (hg c hc)
  have hne : ∀ l ∈ csvHeaderChars :: cards.map cardRow, l ≠ [] := by
    intro l hl
    rcases List.mem_cons.1 hl with rfl | hl2
    · decide
    · obtain ⟨c, hc, rfl⟩ := List.mem_map.1 hl2
      exact cardRow_ne_nil c
  have hparse : parseCsvRows (exportCsv cards).data =
      csvTokensLine csvHeaderChars :: (cards.map cardRow).map csvTokensLine := by
    show parseCsvRows (joinCRLF (csvHeaderChars :: cards.map cardRow)) = _
    unfold parseCsvRows
    rw [splitLines_joinCRLF (csvHeaderChars :: cards.map cardRow) (by simp) hnl]
    rw [filter_nonempty_lines (csvHeaderChars :: cards.map cardRow) hne]
    rw [List.map_cons]
  have hheader : csvTokensLine csvHeaderChars =
      [['i', 'd'], ['n', 'a', 'm', 'e'],
       ['c', 'a', 't', 'e', 'g', 'o', 'r', 'y'],
       ['d', 'i', 's', 't', 'r', 'i', 'c', 't'],
       ['d', 'i', 's', 'c', 'o', 'u', 'n', 't'], ['s', 't', 'a', 't', 'u', 's'],
       ['p', 'u', 'b', 'l', 'i', 's', 'h', 'e', 'd'],
       ['d', 'e', 's', 'c', 'r', 'i', 'p', 't', 'i', 'o', 'n'],
       ['c', 'r', 'e', 'a', 't', 'e', 'd', 'A', 't'],
       ['u', 'p', 'd', 'a', 't', 'e', 'd', 'A', 't']] := by decide
  have hrows : (cards.map cardRow).map csvTokensLine =
      cards.map (fun c =>
        [c.id.data, c.name.data, c.category.data, c.district.data,
         discountCell c.discount, c.status.data, boolCell c.published,
         c.description.data, c.createdAt.data, c.updatedAt.data]) := by
    rw [List.map_map]
    refine List.map_congr_left fun c hc => ?_
    show csvTokensLine (cardRow c) = _
    exact csvTokensLine_cardRow c ((hg c hc).2.2.2.2.2.2.2.2.2.2.2.2)
  unfold importCsvInto
  rw [hparse, hheader, hrows]
  simp only [List.headD_cons, List.tail_cons]
  rw [importRowsLoop_appends cards [] uidF now 0 hg (by intro x _ p hp; cases hp) hids]
  rw [List.nil_append]

/-- Witness for C1 amended on a concrete card array containing a null
discount and a fractional discount. -/
theorem c1_csv_roundtrip_witness :
    importCsvInto (fun _ => "fresh") ("NOW")
      (exportCsv
        [{ id := "a", name := "n", category := "k", district := "d",
           discount := none, status := "s", published := true,
           description := "", createdAt := "t", updatedAt := "u" },
         { id := "b", name := "m", category := "k", district := "d",
           discount := some (JsNum.q (5 / 2)), status := "s", published := false,
           description := "", createdAt := "t", updatedAt := "u" }]) [] =
      [{ id := "a", name := "n", category := "k", district := "d",
         discount := none, status := "s", published := true,
         description := "", createdAt := "t", updatedAt := "NOW" },
       { id := "b", name := "m", category := "k", district := "d",
         discount := some (JsNum.q (5 / 2)), status := "s", published := false,
         description := "", createdAt := "t", updatedAt := "NOW" }] := by
  rw [c1_csv_roundtrip
    [{ id := "a", name := "n", category := "k", district := "d",
       discount := none, status := "s", published := true,
       description := "", createdAt := "t", updatedAt := "u" },
     { id := "b", name := "m", category := "k", district := "d",
       discount := some (JsNum.q (5 / 2)), status := "s", published := false,
       description := "", createdAt := "t", updatedAt := "u" }]
    (fun _ => "fresh") ("NOW") ?good (by decide)]
  · rfl
  case good =>
    intro c hc
    rcases List.mem_cons.1 hc with rfl | hc2
    · exact ⟨by decide, by decide, by decide, by decide, by decide, by decide,
        by decide, by decide, by decide, by decide, by decide, by decide,
        Or.inl rfl⟩
    · rw [List.mem_singleton.1 hc2]
      refine ⟨by decide, by decide, by decide, by decide, by decide, by decide,
        by decide, by decide, by decide, by decide, by decide, by decide,
        Or.inr ⟨(5 : ℚ) / 2, rfl, ⟨25 * 10 ^ 1199, ?_⟩⟩⟩
      push_cast
      rw [show (1200 : ℕ) = 1199 + 1 from rfl, pow_succ]
      ring

end WebKarma
